import Mathlib

/-!
Verification development for the metadata/container decoding core of a
Tk image viewer (files `metadata.py` and `main.py`).

The Python source is shallowly embedded: pure functions become Lean
functions over explicit data, mutation of the global `APP` object becomes
explicit state passing on an `App` structure, and raising an exception
becomes an `Except PyErr` result (or an `App × Option PyErr` pair when the
partially mutated state must survive the raise, as it does in CPython).
External library calls (PIL image decoding, `ImageCms` ICC parsing,
`yaml.safe_dump`, `subprocess`, `os.stat`, the GUI resize) are modelled as
oracle fields of `World`/`FS` structures, since their behaviour is not part
of this repository.  Python's codec machinery for the encodings the source
actually names is modelled concretely in `pyDecodeBytes` (with the Windows
`"ansi"` codec taken to be cp1252, which is what the source assumes).
Character case mapping and digit classification are modelled on ASCII.
-/

/-! ### Character and string helpers (models of Python `str` operations) -/

/-- Python `str` whitespace for `strip()` (ASCII subset). -/
def isSpaceChar (c : Char) : Bool :=
  c = ' ' ∨ c = '\t' ∨ c = '\n' ∨ c = '\x0d' ∨ c = '\x0b' ∨ c = '\x0c'

/-- ASCII lower-casing, models Python `str.lower` on ASCII text. -/
def charLower (c : Char) : Char :=
  if 'A' ≤ c ∧ c ≤ 'Z' then Char.ofNat (c.toNat + 32) else c

/-- ASCII upper-casing, models Python `str.upper` on ASCII text. -/
def charUpper (c : Char) : Char :=
  if 'a' ≤ c ∧ c ≤ 'z' then Char.ofNat (c.toNat - 32) else c

def strLower (s : String) : String := ⟨s.data.map charLower⟩

def strUpper (s : String) : String := ⟨s.data.map charUpper⟩

/-- Code-point comparison of characters, as Python compares `str`. -/
def charCmp (a b : Char) : Ordering := compare a.toNat b.toNat

def strCmpL : List Char → List Char → Ordering
  | [], [] => .eq
  | [], _ :: _ => .lt
  | _ :: _, [] => .gt
  | a :: as, b :: bs =>
    match charCmp a b with
    | .eq => strCmpL as bs
    | o => o

/-- Lexicographic code-point comparison, Python's `<` on strings. -/
def strCmp (a b : String) : Ordering := strCmpL a.data b.data

/-- Python `needle in hay` substring test. -/
def listContainsSub [BEq α] (needle : List α) : List α → Bool
  | [] => needle.isEmpty
  | l@(_ :: t) => needle.isPrefixOf l || listContainsSub needle t

def strContains (hay needle : String) : Bool :=
  listContainsSub needle.data hay.data

def strStartsWith (s p : String) : Bool := p.data.isPrefixOf s.data

def strEndsWith (s p : String) : Bool := p.data.isSuffixOf s.data

/-- Python `str.strip()` on a character list: drop leading and trailing
whitespace. -/
def pyStripL (l : List Char) : List Char :=
  ((l.dropWhile isSpaceChar).reverse.dropWhile isSpaceChar).reverse

def pyStrip (s : String) : String := ⟨pyStripL s.data⟩

/-- Python `str.rstrip()`. -/
def pyRstrip (s : String) : String :=
  ⟨(s.data.reverse.dropWhile isSpaceChar).reverse⟩

/-- Python `str.split(sep)` for a non-empty separator, with fuel for
termination (the fuel `l.length` is always sufficient since every step
consumes at least one character). -/
def splitOnGo (sep : List Char) : Nat → List Char → List Char → List (List Char)
  | 0, acc, l => [acc.reverse ++ l]
  | fuel + 1, acc, l =>
    match l with
    | [] => [acc.reverse]
    | c :: cs =>
      if sep ≠ [] ∧ sep.isPrefixOf l then
        acc.reverse :: splitOnGo sep fuel [] (l.drop sep.length)
      else
        splitOnGo sep fuel (c :: acc) cs

def pySplit (s sep : String) : List String :=
  (splitOnGo sep.data s.data.length [] s.data).map (⟨·⟩)

/-- Python `str.split(sep, maxsplit=1)` succeeding only when the separator
occurs; `none` models the `ValueError` of a failing 2-tuple unpack. -/
def splitOnceL (sep : List Char) : List Char → Option (List Char × List Char)
  | [] => none
  | c :: cs =>
    if sep.isPrefixOf (c :: cs) then some ([], (c :: cs).drop sep.length)
    else (splitOnceL sep cs).map (fun p => (c :: p.1, p.2))

def pySplitOnce (s sep : String) : Option (String × String) :=
  (splitOnceL sep.data s.data).map (fun p => (⟨p.1⟩, ⟨p.2⟩))

/-- Replace every NUL character by the two characters `\0`; the embedding of
the source's `msg.replace("\0", "\\0")`. -/
def escNulChars : List Char → List Char
  | [] => []
  | c :: cs =>
    if c = Char.ofNat 0 then '\\' :: '0' :: escNulChars cs
    else c :: escNulChars cs

def escNul (s : String) : String := ⟨escNulChars s.data⟩

/-- Python `f"{n:,}"`: decimal digits grouped in threes by commas.
`goComma` walks the reversed digit list counting emitted digits. -/
def goComma : List Char → Nat → List Char
  | [], _ => []
  | c :: cs, k =>
    if k % 3 = 0 ∧ k ≠ 0 then ',' :: c :: goComma cs 1
    else c :: goComma cs (k + 1)

def commaFormat (n : Nat) : String :=
  ⟨(goComma (toString n).data.reverse 0).reverse⟩

/-- `(s[:200] + "...") if len(s) > 200 else s`. -/
def truncate200 (s : String) : String :=
  if 200 < s.data.length then ⟨s.data.take 200⟩ ++ "..." else s

/-- A single quote character, used by the Python `repr` model. -/
def pyQuote : String := ⟨[Char.ofNat 39]⟩

/-! ### Python values

`im.info` values and EXIF/IPTC/PSD entries are heterogeneous.  Two levels
are modelled (scalars, and containers of scalars), which covers every shape
the source's branches handle. -/

inductive PyScalar where
  | int (n : Int)
  | str (s : String)
  | bytes (b : List Nat)
  deriving DecidableEq

inductive PyVal where
  | int (n : Int)
  | str (s : String)
  | bytes (b : List Nat)
  | tuple (vs : List PyScalar)
  | list (vs : List PyScalar)
  | dict (kvs : List (PyScalar × PyScalar))
  deriving DecidableEq

def PyScalar.toVal : PyScalar → PyVal
  | .int n => .int n
  | .str s => .str s
  | .bytes b => .bytes b

def hexDigit (n : Nat) : Char :=
  if n < 10 then Char.ofNat (48 + n) else Char.ofNat (87 + (n - 10))

/-- One byte inside Python's `repr` of a bytes object. -/
def byteReprChars (b : Nat) : List Char :=
  if b = 92 then ['\\', '\\']
  else if b = 39 then ['\\', Char.ofNat 39]
  else if b = 9 then ['\\', 't']
  else if b = 10 then ['\\', 'n']
  else if b = 13 then ['\\', 'r']
  else if 32 ≤ b ∧ b ≤ 126 then [Char.ofNat b]
  else ['\\', 'x', hexDigit (b / 16 % 16), hexDigit (b % 16)]

/-- Python `repr` of a bytes object, e.g. `b'ab\x00'`. -/
def bytesRepr (b : List Nat) : String :=
  "b" ++ pyQuote ++ ⟨(b.map byteReprChars).flatten⟩ ++ pyQuote

/-- Python `repr` of a scalar.  String escaping inside `repr` of a `str` is
not modelled (the development never evaluates it on strings needing it). -/
def pyReprScalar : PyScalar → String
  | .int n => toString n
  | .str s => pyQuote ++ s ++ pyQuote
  | .bytes b => bytesRepr b

def joinComma : List String → String
  | [] => ""
  | [s] => s
  | s :: rest => s ++ ", " ++ joinComma rest

/-- Python `repr` of a (two-level) value. -/
def pyRepr : PyVal → String
  | .int n => toString n
  | .str s => pyQuote ++ s ++ pyQuote
  | .bytes b => bytesRepr b
  | .tuple [v] => "(" ++ pyReprScalar v ++ ",)"
  | .tuple vs => "(" ++ joinComma (vs.map pyReprScalar) ++ ")"
  | .list vs => "[" ++ joinComma (vs.map pyReprScalar) ++ "]"
  | .dict kvs =>
    "\x7b" ++ joinComma (kvs.map fun kv =>
      pyReprScalar kv.1 ++ ": " ++ pyReprScalar kv.2) ++ "\x7d"

/-- Python `str()` of a value (`f"{v}"`): identity on `str`, `repr`
otherwise. -/
def pyStr : PyVal → String
  | .str s => s
  | v => pyRepr v

/-- Python truthiness of the values above. -/
def pyTruthy : PyVal → Bool
  | .int n => n ≠ 0
  | .str s => s ≠ ""
  | .bytes b => b ≠ []
  | .tuple vs => vs ≠ []
  | .list vs => vs ≠ []
  | .dict kvs => kvs ≠ []

/-! ### Python exceptions -/

inductive PyErr where
  | unicodeDecodeError (msg : String)
  | lookupError (msg : String)
  | keyError (k : String)
  | indexError (msg : String)
  | typeError (msg : String)
  | valueError (msg : String)
  | attributeError (msg : String)
  | osError (msg : String)
  | unidentifiedImageError (msg : String)
  | fileNotFoundError (msg : String)
  deriving DecidableEq

/-- `type(ex).__name__`. -/
def pyErrName : PyErr → String
  | .unicodeDecodeError _ => "UnicodeDecodeError"
  | .lookupError _ => "LookupError"
  | .keyError _ => "KeyError"
  | .indexError _ => "IndexError"
  | .typeError _ => "TypeError"
  | .valueError _ => "ValueError"
  | .attributeError _ => "AttributeError"
  | .osError _ => "OSError"
  | .unidentifiedImageError _ => "UnidentifiedImageError"
  | .fileNotFoundError _ => "FileNotFoundError"

/-- `str(ex)` (for `KeyError`, Python shows the missing key in quotes). -/
def pyErrText : PyErr → String
  | .unicodeDecodeError m => m
  | .lookupError m => m
  | .keyError k => pyQuote ++ k ++ pyQuote
  | .indexError m => m
  | .typeError m => m
  | .valueError m => m
  | .attributeError m => m
  | .osError m => m
  | .unidentifiedImageError m => m
  | .fileNotFoundError m => m

/-! ### Codec model

Concrete model of `bytes.decode(enc)` for the codecs the source names:
`ascii`, `utf8`, `utf-16-be`, `utf-16-le` (also spelled `utf_16_be` /
`utf_16_le`), and the Windows `ansi` codec taken as cp1252. -/

inductive DecodeResult where
  | ok (s : String)
  | failUnicode
  | failLookup
  deriving DecidableEq

/-- Decode as ASCII: every byte below 0x80. -/
def asciiDecode : List Nat → Option (List Char)
  | [] => some []
  | b :: rest =>
    if b < 128 then (asciiDecode rest).map (Char.ofNat b :: ·)
    else none

/-- cp1252 bytes with no assigned character (decoding them is a
`UnicodeDecodeError`). -/
def cp1252Hole (b : Nat) : Bool :=
  b = 129 ∨ b = 141 ∨ b = 143 ∨ b = 144 ∨ b = 157

/-- The cp1252 mapping for the 0x80–0x9F block (other bytes map to their own
code point). -/
def cp1252High (b : Nat) : Nat :=
  if b = 128 then 0x20AC else if b = 130 then 0x201A
  else if b = 131 then 0x0192 else if b = 132 then 0x201E
  else if b = 133 then 0x2026 else if b = 134 then 0x2020
  else if b = 135 then 0x2021 else if b = 136 then 0x02C6
  else if b = 137 then 0x2030 else if b = 138 then 0x0160
  else if b = 139 then 0x2039 else if b = 140 then 0x0152
  else if b = 142 then 0x017D else if b = 145 then 0x2018
  else if b = 146 then 0x2019 else if b = 147 then 0x201C
  else if b = 148 then 0x201D else if b = 149 then 0x2022
  else if b = 150 then 0x2013 else if b = 151 then 0x2014
  else if b = 152 then 0x02DC else if b = 153 then 0x2122
  else if b = 154 then 0x0161 else if b = 155 then 0x203A
  else if b = 156 then 0x0153 else if b = 158 then 0x017E
  else if b = 159 then 0x0178 else b

def cp1252Char (b : Nat) : Char :=
  if 128 ≤ b ∧ b ≤ 159 then Char.ofNat (cp1252High b) else Char.ofNat b

/-- Strict cp1252 decode. -/
def cp1252Decode : List Nat → Option (List Char)
  | [] => some []
  | b :: rest =>
    if cp1252Hole b then none
    else (cp1252Decode rest).map (cp1252Char b :: ·)

/-- cp1252 decode with `errors="replace"` (holes become U+FFFD). -/
def cp1252DecodeReplace : List Nat → List Char
  | [] => []
  | b :: rest =>
    (if cp1252Hole b then Char.ofNat 0xFFFD else cp1252Char b)
      :: cp1252DecodeReplace rest

/-- Pair bytes into 16-bit units, failing on odd length. -/
def utf16Units (be : Bool) : List Nat → Option (List Nat)
  | [] => some []
  | [_] => none
  | a :: b :: rest =>
    let u := if be then a * 256 + b else b * 256 + a
    (utf16Units be rest).map (u :: ·)

/-- Combine UTF-16 code units, pairing surrogates strictly. -/
def utf16Chars : List Nat → Option (List Char)
  | [] => some []
  | u :: rest =>
    if 0xD800 ≤ u ∧ u ≤ 0xDBFF then
      match rest with
      | lo :: rest2 =>
        if 0xDC00 ≤ lo ∧ lo ≤ 0xDFFF then
          (utf16Chars rest2).map
            (Char.ofNat (0x10000 + (u - 0xD800) * 0x400 + (lo - 0xDC00)) :: ·)
        else none
      | [] => none
    else if 0xDC00 ≤ u ∧ u ≤ 0xDFFF then none
    else (utf16Chars rest).map (Char.ofNat u :: ·)

def utf16Decode (be : Bool) (b : List Nat) : Option (List Char) :=
  (utf16Units be b).bind utf16Chars

def isUtf8Cont (b : Nat) : Bool := 128 ≤ b ∧ b ≤ 191

/-- Decode one UTF-8 sequence from the front; `none` on malformed input. -/
def utf8One : List Nat → Option (Char × List Nat)
  | [] => none
  | b :: rest =>
    if b < 128 then some (Char.ofNat b, rest)
    else if 194 ≤ b ∧ b ≤ 223 then
      match rest with
      | b2 :: r2 =>
        if isUtf8Cont b2 then some (Char.ofNat ((b - 192) * 64 + (b2 - 128)), r2)
        else none
      | _ => none
    else if 224 ≤ b ∧ b ≤ 239 then
      match rest with
      | b2 :: b3 :: r3 =>
        let lo2 := if b = 224 then 160 else 128
        let hi2 := if b = 237 then 159 else 191
        if (lo2 ≤ b2 ∧ b2 ≤ hi2) ∧ isUtf8Cont b3 then
          some (Char.ofNat ((b - 224) * 4096 + (b2 - 128) * 64 + (b3 - 128)), r3)
        else none
      | _ => none
    else if 240 ≤ b ∧ b ≤ 244 then
      match rest with
      | b2 :: b3 :: b4 :: r4 =>
        let lo2 := if b = 240 then 144 else 128
        let hi2 := if b = 244 then 143 else 191
        if (lo2 ≤ b2 ∧ b2 ≤ hi2) ∧ isUtf8Cont b3 ∧ isUtf8Cont b4 then
          some (Char.ofNat ((b - 240) * 262144 + (b2 - 128) * 4096
            + (b3 - 128) * 64 + (b4 - 128)), r4)
        else none
      | _ => none
    else none

def utf8Go : Nat → List Nat → Option (List Char)
  | _, [] => some []
  | 0, _ :: _ => none
  | fuel + 1, l =>
    match utf8One l with
    | none => none
    | some (c, rest) => (utf8Go fuel rest).map (c :: ·)

def utf8Decode (b : List Nat) : Option (List Char) := utf8Go b.length b

/-- Python's codec-name normalisation, restricted to what the source
passes: lower-case and turn hyphens into underscores. -/
def normalizeEnc (e : String) : String :=
  ⟨(strLower e).data.map (fun c => if c = '-' then '_' else c)⟩

def ofOpt : Option (List Char) → DecodeResult
  | some cs => .ok ⟨cs⟩
  | none => .failUnicode

/-- `bytes.decode(enc)` for the codecs this program uses; unknown names are
a `LookupError`. -/
def pyDecodeBytes (enc : String) (b : List Nat) : DecodeResult :=
  let n := normalizeEnc enc
  if n = "ascii" then ofOpt (asciiDecode b)
  else if n = "utf8" ∨ n = "utf_8" then ofOpt (utf8Decode b)
  else if n = "utf_16_be" then ofOpt (utf16Decode true b)
  else if n = "utf_16_le" then ofOpt (utf16Decode false b)
  else if n = "ansi" ∨ n = "cp1252" then ofOpt (cp1252Decode b)
  else .failLookup

/-- The encodings `pyDecodeBytes` recognises. -/
def encKnown (enc : String) : Bool :=
  let n := normalizeEnc enc
  n = "ascii" ∨ n = "utf8" ∨ n = "utf_8" ∨ n = "utf_16_be" ∨ n = "utf_16_le"
    ∨ n = "ansi" ∨ n = "cp1252"

/-! ### `metadata.py`: tables -/

/-- IPTC/IIM `(record, dataset)` names (`IIM_NAMES` in the source). -/
def IIM_NAMES : Nat × Nat → Option String
  | (2, 90) => some "cityName"
  | (2, 116) => some "copyrightNotice"
  | (2, 101) => some "countryName"
  | (2, 100) => some "countryCode"
  | (2, 80) => some "creatorNames"
  | (2, 85) => some "jobtitle"
  | (2, 110) => some "creditLine"
  | (2, 55) => some "dateCreated"
  | (2, 120) => some "description"
  | (2, 122) => some "captionWriter"
  | (2, 105) => some "headline"
  | (2, 40) => some "instructions"
  | (2, 4) => some "intellectualGenre"
  | (2, 103) => some "jobid"
  | (2, 25) => some "keywords"
  | (2, 95) => some "provinceState"
  | (2, 115) => some "source"
  | (2, 12) => some "subjectCodes"
  | (2, 92) => some "sublocationName"
  | (2, 5) => some "title"
  | _ => none

/-- EXIF tag names: the source merges PIL's `ExifTags.TAGS` with five extra
entries.  PIL's table is external; the subset of standard entries this
development exercises is listed, with the source's additions. -/
def EXIF_TAGS : Nat → Option String
  | 256 => some "ImageWidth"
  | 257 => some "ImageLength"
  | 270 => some "ImageDescription"
  | 271 => some "Make"
  | 272 => some "Model"
  | 274 => some "Orientation"
  | 282 => some "XResolution"
  | 283 => some "YResolution"
  | 296 => some "ResolutionUnit"
  | 305 => some "Software"
  | 306 => some "DateTime"
  | 315 => some "Artist"
  | 531 => some "YCbCrPositioning"
  | 33432 => some "Copyright"
  | 34665 => some "ExifOffset"
  | 36864 => some "ExifVersion"
  | 37121 => some "ComponentsConfiguration"
  | 37510 => some "UserComment"
  | 40961 => some "ColorSpace"
  | 41990 => some "SceneCaptureType"
  | 769 => some "Exif 0x0301"
  | 771 => some "Rendering Intent"
  | 20752 => some "Pixel Units"
  | 20753 => some "Pixels Per Unit X"
  | 20754 => some "Pixels Per Unit Y"
  | _ => none

/-- Photoshop Image Resource Block ids (`PSD_RESOURCE_IDS` in the source). -/
def PSD_RESOURCE_IDS : Nat → Option String
  | 1000 => some "Ps2Info"
  | 1001 => some "MacPrintManagerInfo"
  | 1002 => some "MacPageFormatInfo"
  | 1003 => some "Ps2IndexedColorTable"
  | 1005 => some "ResolutionInfo"
  | 1006 => some "AlphaChannelsNames"
  | 1007 => some "OldDisplayInfo"
  | 1008 => some "Caption"
  | 1009 => some "BorderInfo"
  | 1010 => some "BackgroundColor"
  | 1011 => some "PrintFlags"
  | 1012 => some "GrayscaleAndMultichannelHalftoningInfo"
  | 1013 => some "ColorHalftoningInfo"
  | 1014 => some "DuotoneHalftoningInfo"
  | 1015 => some "GrayscaleAndMultichannelTransferFunction"
  | 1016 => some "ColorTransferFunctions"
  | 1017 => some "DuotoneTransferFunctions"
  | 1018 => some "DuotoneImageInfo"
  | 1019 => some "EffectiveBlackAndWhiteValues"
  | 1021 => some "EpsOptions"
  | 1022 => some "QuickMaskInfo"
  | 1024 => some "LayerStateInfo"
  | 1025 => some "WorkingPath"
  | 1026 => some "LayersGroupInfo"
  | 1028 => some "UptcNaaRecord"
  | 1029 => some "RawFormatFilesImageMode"
  | 1030 => some "JpegQuality"
  | 1032 => some "GridAndGuidesInfo"
  | 1033 => some "Ps4Thumbnail"
  | 1034 => some "CopyrightFlag"
  | 1035 => some "Url"
  | 1036 => some "Thumbnail"
  | 1037 => some "GlobalAngle"
  | 1039 => some "IccProfile"
  | 1040 => some "Watermark"
  | 1041 => some "IccUntaggedProfile"
  | 1042 => some "EffectsVisible"
  | 1043 => some "SpotHalftone"
  | 1044 => some "IdSeedNumber"
  | 1045 => some "UnicodeAlphaNames"
  | 1046 => some "IndexedColorTableCount"
  | 1047 => some "TransparencyIndex"
  | 1049 => some "GlobalAltitude"
  | 1050 => some "Slices"
  | 1051 => some "WorkflowUrl"
  | 1052 => some "JumpToXpep"
  | 1053 => some "AlphaIndentifiers"
  | 1054 => some "UrlList"
  | 1057 => some "VersionInfo"
  | 1058 => some "ExifData1"
  | 1059 => some "ExifData3"
  | 1060 => some "XmpMetadata"
  | 1061 => some "CaptionDigest"
  | 1062 => some "PrintScale"
  | 1064 => some "PixelAspectRatio"
  | 1065 => some "LayerComps"
  | 1066 => some "AlternateDuotoneColors"
  | 1067 => some "AlternateSpotColors"
  | 1069 => some "LayerSelectionIds"
  | 1070 => some "HdrToningInfo"
  | 1071 => some "PrintInfo"
  | 1072 => some "LayerGroupsEnabledId"
  | 1073 => some "ColorSamplers"
  | 1074 => some "MeasurementScale"
  | 1075 => some "TimelineInfo"
  | 1076 => some "SheetDisclosure"
  | 1077 => some "DisplayInfo"
  | 1078 => some "OnionSkins"
  | 1080 => some "CountInfo"
  | 1082 => some "PrintSettings"
  | 1083 => some "PrintStyle"
  | 1084 => some "NsPrintInfo"
  | 1086 => some "AutoSaveFilePath"
  | 1087 => some "AutoSaveFormat"
  | 1088 => some "PathSelectionState"
  | 2999 => some "ClippingPathName"
  | 3000 => some "OriginPathInfo"
  | 10000 => some "PrintFlagsInfo"
  | _ => none

/-- The subset of PIL's `TiffTags.TAGS_V2` names used by this development
(the full table is external to the repository). -/
def TIFF_TAGS_V2 : Nat → Option String
  | 256 => some "ImageWidth"
  | 257 => some "ImageLength"
  | 259 => some "Compression"
  | 282 => some "XResolution"
  | 283 => some "YResolution"
  | 296 => some "ResolutionUnit"
  | 305 => some "Software"
  | 306 => some "DateTime"
  | _ => none

def RENDERING_INTENT : List String :=
  ["Perceptual", "Relative colorimetric", "Saturation", "Absolute colorimetric"]

/-! ### `metadata.py`: `info_decode` -/

/-- `b"ASCII\0\0\0"`. -/
def asciiMarker : List Nat := [65, 83, 67, 73, 73, 0, 0, 0]

/-- `b"UNICODE\0"`. -/
def unicodeMarker : List Nat := [85, 78, 73, 67, 79, 68, 69, 0]

/-- `re.sub("[^\x20-\x7F]+", " ", s)`: each maximal run of characters
outside 0x20–0x7F becomes a single space. -/
def isPermPrintable (c : Char) : Bool := 32 ≤ c.toNat ∧ c.toNat ≤ 127

def reSubNonPrintableGo : List Char → Bool → List Char
  | [], _ => []
  | c :: cs, inRun =>
    if isPermPrintable c then c :: reSubNonPrintableGo cs false
    else if inRun then reSubNonPrintableGo cs true
    else ' ' :: reSubNonPrintableGo cs true

def reSubNonPrintable (s : String) : String :=
  ⟨reSubNonPrintableGo s.data false⟩

/-- The `for enc in (...)` loop of `info_decode`: try each encoding; a
`UnicodeDecodeError` is caught and the next encoding tried, any other
failure (an unknown encoding name) escapes; `none` means the loop was
exhausted. -/
def decodeTryChain (b : List Nat) : List String → Option (Except PyErr String)
  | [] => none
  | enc :: rest =>
    match pyDecodeBytes enc b with
    | .ok s => some (.ok s)
    | .failUnicode => decodeTryChain b rest
    | .failLookup => some (.error (.lookupError ("unknown encoding: " ++ enc)))

/-- The fall-through `b.decode("ansi")` path with its `re.sub`. -/
def ansiFallback (b : List Nat) : Except PyErr String :=
  match pyDecodeBytes "ansi" b with
  | .ok s => .ok (reSubNonPrintable s)
  | .failUnicode => .error (.unicodeDecodeError "charmap codec cannot decode byte")
  | .failLookup => .error (.lookupError "unknown encoding: ansi")

/-- `info_decode` from `metadata.py`: decode a tagged EXIF byte string.
Non-bytes input is passed through `str()`. -/
def info_decode (v : PyVal) (encoding : String) : Except PyErr String :=
  match v with
  | .bytes b =>
    if asciiMarker.isPrefixOf b then
      match pyDecodeBytes "ascii" (b.drop 8) with
      | .ok s => .ok s
      | .failUnicode =>
        .error (.unicodeDecodeError "ascii codec cannot decode byte")
      | .failLookup => .error (.lookupError "unknown encoding: ascii")
    else if unicodeMarker.isPrefixOf b then
      let b2 := b.drop 8
      match decodeTryChain b2 ["utf-16-be", "utf-16-le", encoding, "utf8"] with
      | some r => r
      | none => ansiFallback b2
    else
      ansiFallback b
  | v => .ok (pyStr v)

/-! ### `main.py`: `natural_sort` and Python list sorting -/

/-- Unicode decimal digits (category Nd) — the characters that re's `\d`
matches and that `int()` accepts: the start of the aligned 0–9 range
containing `c`.  The Basic-Multilingual-Plane Nd ranges are listed;
supplementary-plane ranges are omitted from the model (their characters
are treated as plain text, consistently also excluded from the
`str.isdigit` model below). -/
def ndRangeStart (c : Char) : Option Nat :=
  let n := c.toNat
  if 0x30 ≤ n ∧ n ≤ 0x39 then some 0x30
  else if 0x660 ≤ n ∧ n ≤ 0x669 then some 0x660
  else if 0x6F0 ≤ n ∧ n ≤ 0x6F9 then some 0x6F0
  else if 0x7C0 ≤ n ∧ n ≤ 0x7C9 then some 0x7C0
  else if 0x966 ≤ n ∧ n ≤ 0x96F then some 0x966
  else if 0x9E6 ≤ n ∧ n ≤ 0x9EF then some 0x9E6
  else if 0xA66 ≤ n ∧ n ≤ 0xA6F then some 0xA66
  else if 0xAE6 ≤ n ∧ n ≤ 0xAEF then some 0xAE6
  else if 0xB66 ≤ n ∧ n ≤ 0xB6F then some 0xB66
  else if 0xBE6 ≤ n ∧ n ≤ 0xBEF then some 0xBE6
  else if 0xC66 ≤ n ∧ n ≤ 0xC6F then some 0xC66
  else if 0xCE6 ≤ n ∧ n ≤ 0xCEF then some 0xCE6
  else if 0xD66 ≤ n ∧ n ≤ 0xD6F then some 0xD66
  else if 0xDE6 ≤ n ∧ n ≤ 0xDEF then some 0xDE6
  else if 0xE50 ≤ n ∧ n ≤ 0xE59 then some 0xE50
  else if 0xED0 ≤ n ∧ n ≤ 0xED9 then some 0xED0
  else if 0xF20 ≤ n ∧ n ≤ 0xF29 then some 0xF20
  else if 0x1040 ≤ n ∧ n ≤ 0x1049 then some 0x1040
  else if 0x1090 ≤ n ∧ n ≤ 0x1099 then some 0x1090
  else if 0x17E0 ≤ n ∧ n ≤ 0x17E9 then some 0x17E0
  else if 0x1810 ≤ n ∧ n ≤ 0x1819 then some 0x1810
  else if 0x1946 ≤ n ∧ n ≤ 0x194F then some 0x1946
  else if 0x19D0 ≤ n ∧ n ≤ 0x19D9 then some 0x19D0
  else if 0x1A80 ≤ n ∧ n ≤ 0x1A89 then some 0x1A80
  else if 0x1A90 ≤ n ∧ n ≤ 0x1A99 then some 0x1A90
  else if 0x1B50 ≤ n ∧ n ≤ 0x1B59 then some 0x1B50
  else if 0x1BB0 ≤ n ∧ n ≤ 0x1BB9 then some 0x1BB0
  else if 0x1C40 ≤ n ∧ n ≤ 0x1C49 then some 0x1C40
  else if 0x1C50 ≤ n ∧ n ≤ 0x1C59 then some 0x1C50
  else if 0xA620 ≤ n ∧ n ≤ 0xA629 then some 0xA620
  else if 0xA8D0 ≤ n ∧ n ≤ 0xA8D9 then some 0xA8D0
  else if 0xA900 ≤ n ∧ n ≤ 0xA909 then some 0xA900
  else if 0xA9D0 ≤ n ∧ n ≤ 0xA9D9 then some 0xA9D0
  else if 0xA9F0 ≤ n ∧ n ≤ 0xA9F9 then some 0xA9F0
  else if 0xAA50 ≤ n ∧ n ≤ 0xAA59 then some 0xAA50
  else if 0xABF0 ≤ n ∧ n ≤ 0xABF9 then some 0xABF0
  else if 0xFF10 ≤ n ∧ n ≤ 0xFF19 then some 0xFF10
  else none

/-- A decimal digit (category Nd): what re's `\d` matches. -/
def isDig (c : Char) : Bool := (ndRangeStart c).isSome

/-- The numeric value of a decimal digit. -/
def ndDigitVal (c : Char) : Nat :=
  match ndRangeStart c with
  | some s => c.toNat - s
  | none => 0

/-- Characters with Unicode Numeric_Type=Digit that are not decimal
digits: `str.isdigit` is true for them, yet `\d` does not match them and
`int()` rejects them with a `ValueError`.  A documented subset
(superscript and subscript digits, e.g. U+00B2 SUPERSCRIPT TWO); further
such characters behave identically. -/
def pyDigitExtra (c : Char) : Bool :=
  let n := c.toNat
  n = 0xB2 ∨ n = 0xB3 ∨ n = 0xB9 ∨ n = 0x2070
    ∨ (0x2074 ≤ n ∧ n ≤ 0x2079) ∨ (0x2080 ≤ n ∧ n ≤ 0x2089)

/-- The character level of Python `str.isdigit`. -/
def pyDigitChar (c : Char) : Bool := isDig c || pyDigitExtra c

/-- `re.split(r"(\d+|[.])", s)`: the token list alternates text fragments
(even positions) with captured separators (odd positions), the captures
being maximal digit runs or single dots.  Defined by structural recursion,
merging a digit with the digit run that follows it. -/
def natSplit : List Char → List (List Char)
  | [] => [[]]
  | c :: cs =>
    if c = '.' then [] :: ['.'] :: natSplit cs
    else if isDig c then
      match cs with
      | c2 :: _ =>
        if isDig c2 then
          match natSplit cs with
          | [] :: run :: rest => [] :: (c :: run) :: rest
          | other => [] :: [c] :: other
        else [] :: [c] :: natSplit cs
      | [] => [] :: [c] :: natSplit cs
    else
      match natSplit cs with
      | t :: ts => (c :: t) :: ts
      | [] => [[c]]

/-- A sort-key element: Python mixes `int` and `str` in the key list. -/
inductive PyKey where
  | i (n : Int)
  | s (t : String)
  deriving DecidableEq

/-- `str.isdigit`: non-empty and every character digit-typed. -/
def pyIsdigit (t : List Char) : Bool := (!t.isEmpty) && t.all pyDigitChar

/-- `int(t)` at this call site: succeeds exactly on non-empty strings of
decimal digits (of any script), and raises `ValueError` on the remaining
digit-typed tokens `str.isdigit` lets through. -/
def pyIntDigits (t : List Char) : Option Nat :=
  if (!t.isEmpty) && t.all isDig then
    some (t.foldl (fun a c => a * 10 + ndDigitVal c) 0)
  else none

/-- The per-token mapping of `natural_sort`:
`-1 if t == "." else int(t) if t.isdigit() else t.lower()`; the `int(t)`
branch raises on a digit-typed token that is not all decimal digits. -/
def natKey (t : List Char) : Except PyErr PyKey :=
  if t = ['.'] then .ok (.i (-1))
  else if pyIsdigit t then
    match pyIntDigits t with
    | some n => .ok (.i (Int.ofNat n))
    | none => .error (.valueError "invalid literal for int with base 10")
  else .ok (.s ⟨t.map charLower⟩)

/-- The list comprehension of `natural_sort`: keys are computed left to
right and the first raising token aborts the whole key. -/
def natKeysList : List (List Char) → Except PyErr (List PyKey)
  | [] => .ok []
  | t :: ts =>
    match natKey t with
    | .error e => .error e
    | .ok k =>
      match natKeysList ts with
      | .error e => .error e
      | .ok ks => .ok (k :: ks)

/-- `natural_sort` from `main.py`: the sort key of a name (raising
`ValueError` out of the function when a token's `int` fails). -/
def natural_sort (s : String) : Except PyErr (List PyKey) :=
  natKeysList (natSplit s.data)

/-- Python comparison of two key elements; `none` is the `TypeError` of
ordering `int` against `str`. -/
def pyKeyCmp : PyKey → PyKey → Option Ordering
  | .i a, .i b => some (compare a b)
  | .s a, .s b => some (strCmp a b)
  | _, _ => none

/-- Python lexicographic comparison of two key lists. -/
def pyKeyListCmp : List PyKey → List PyKey → Option Ordering
  | [], [] => some .eq
  | [], _ :: _ => some .lt
  | _ :: _, [] => some .gt
  | a :: as, b :: bs =>
    match pyKeyCmp a b with
    | none => none
    | some .eq => pyKeyListCmp as bs
    | some o => some o

/-- Stable insertion of a decorated element by its precomputed key: the
element moves past every entry it is not strictly before (ascending) or
strictly after (descending), so equal keys keep their order. -/
def insertPair (desc : Bool) (x : String × List PyKey) :
    List (String × List PyKey) →
      Except PyErr (List (String × List PyKey))
  | [] => .ok [x]
  | y :: ys =>
    match pyKeyListCmp x.2 y.2 with
    | none =>
      .error (.typeError "< not supported between instances of str and int")
    | some o =>
      if (if desc then o = .gt else o = .lt) then .ok (x :: y :: ys)
      else (insertPair desc x ys).map (y :: ·)

/-- The decoration pass of `list.sort(key=...)`: CPython computes every
key first, in list order, so a raising key function aborts here. -/
def computeKeys (key : String → Except PyErr (List PyKey)) :
    List String → Except PyErr (List (String × List PyKey))
  | [] => .ok []
  | x :: xs =>
    match key x with
    | .error e => .error e
    | .ok k =>
      match computeKeys key xs with
      | .error e => .error e
      | .ok rest => .ok ((x, k) :: rest)

/-- `names.sort(key=key, reverse=desc)`: decorate, sort stably, undecorate. -/
def pySortByKey (key : String → Except PyErr (List PyKey)) (desc : Bool)
    (l : List String) : Except PyErr (List String) :=
  match computeKeys key l with
  | .error e => .error e
  | .ok pairs =>
    match pairs.foldlM (fun acc x => insertPair desc x acc) [] with
    | .error e => .error e
    | .ok sorted => .ok (sorted.map (fun y => y.1))

/-- Plain `sorted(list_of_str)` (always succeeds). -/
def insertStr (x : String) : List String → List String
  | [] => [x]
  | y :: ys => if strCmp x y = .lt then x :: y :: ys else y :: insertStr x ys

def sortStrs (l : List String) : List String :=
  l.foldl (fun acc x => insertStr x acc) []

/-! ### Type structure of `natural_sort` keys -/

/-- A text fragment produced by `natSplit`: free of digits and dots. -/
def TextTok (t : List Char) : Prop := ∀ c ∈ t, isDig c = false ∧ c ≠ '.'

/-- A captured separator produced by `natSplit`: a dot or a digit run. -/
inductive MatchTok : List Char → Prop
  | dot : MatchTok ['.']
  | digits (t : List Char) (h1 : t ≠ []) (h2 : ∀ c ∈ t, isDig c = true) :
      MatchTok t

/-- The token list alternates text fragments (even positions) and captured
separators (odd positions), starting and ending with a text fragment. -/
inductive AltTM : List (List Char) → Prop
  | single (t : List Char) (ht : TextTok t) : AltTM [t]
  | cons (t m : List Char) (l : List (List Char)) (ht : TextTok t)
      (hm : MatchTok m) (hl : AltTM l) : AltTM (t :: m :: l)

theorem natSplit_cons (c : Char) (cs : List Char) :
    natSplit (c :: cs) =
      (if c = '.' then [] :: ['.'] :: natSplit cs
      else if isDig c then
        match cs with
        | c2 :: _ =>
          if isDig c2 then
            match natSplit cs with
            | [] :: run :: rest => [] :: (c :: run) :: rest
            | other => [] :: [c] :: other
          else [] :: [c] :: natSplit cs
        | [] => [] :: [c] :: natSplit cs
      else
        match natSplit cs with
        | t :: ts => (c :: t) :: ts
        | [] => [[c]]) := rfl

theorem textTok_nil : TextTok [] := fun c hc => absurd hc (List.not_mem_nil c)

theorem altTM_elim {t : List Char} {ts : List (List Char)}
    (h : AltTM (t :: ts)) :
    (ts = [] ∧ TextTok t) ∨
      (∃ m l, ts = m :: l ∧ TextTok t ∧ MatchTok m ∧ AltTM l) := by
  cases h with
  | single t2 ht => exact .inl ⟨rfl, ht⟩
  | cons t2 m l ht hm hl => exact .inr ⟨m, l, rfl, ht, hm, hl⟩

theorem natSplit_alt : ∀ l : List Char,
    AltTM (natSplit l) ∧
    (∀ c cs, l = c :: cs → isDig c = true →
      ∃ run rest, natSplit l = [] :: run :: rest ∧ run ≠ [] ∧
        (∀ d ∈ run, isDig d = true)) := by
  intro l
  induction l with
  | nil =>
    refine ⟨AltTM.single [] textTok_nil, ?_⟩
    intro c cs h; cases h
  | cons c cs ih =>
    by_cases hdot : c = '.'
    · subst hdot
      have h1 : natSplit ('.' :: cs) = [] :: ['.'] :: natSplit cs := by
        rw [natSplit_cons, if_pos rfl]
      refine ⟨?_, ?_⟩
      · rw [h1]
        exact AltTM.cons _ _ _ textTok_nil MatchTok.dot ih.1
      · intro c' cs' heq hdig
        injection heq with h2 h3
        subst h2
        exact absurd hdig (by decide)
    · by_cases hdig : isDig c = true
      · cases cs with
        | nil =>
          have h1 : natSplit [c] = [[], [c], []] := by
            rw [natSplit_cons, if_neg hdot, if_pos hdig]
            rfl
          have hrun1 : ∀ d ∈ [c], isDig d = true := by
            intro d hd
            rw [List.mem_singleton] at hd
            subst hd; exact hdig
          have halt : AltTM [[], [c], []] :=
            AltTM.cons _ _ _ textTok_nil
              (MatchTok.digits [c] (by simp) hrun1)
              (AltTM.single [] textTok_nil)
          refine ⟨h1 ▸ halt, ?_⟩
          intro c' cs' heq _
          injection heq with h2 h3
          subst h2; subst h3
          exact ⟨[c], [[]], h1, by simp, hrun1⟩
        | cons c2 cs2 =>
          by_cases hdig2 : isDig c2 = true
          · obtain ⟨run, rest, hsplit, hne, hrun⟩ := ih.2 c2 cs2 rfl hdig2
            have h1 : natSplit (c :: c2 :: cs2) = [] :: (c :: run) :: rest := by
              rw [natSplit_cons, if_neg hdot, if_pos hdig]
              simp only [hdig2, if_true]
              rw [hsplit]
            have hrun2 : ∀ d ∈ c :: run, isDig d = true := by
              intro d hd
              rcases List.mem_cons.mp hd with h | h
              · subst h; exact hdig
              · exact hrun d h
            have halt2 : AltTM ([] :: (c :: run) :: rest) := by
              have halt0 : AltTM ([] :: run :: rest) := hsplit ▸ ih.1
              rcases altTM_elim halt0 with ⟨heq, _⟩ | ⟨m, l0, heq, _, hm, hl⟩
              · cases heq
              · injection heq with hm0 hl0
                subst hm0; subst hl0
                exact AltTM.cons _ _ _ textTok_nil
                  (MatchTok.digits _ (by simp) hrun2) hl
            refine ⟨h1 ▸ halt2, ?_⟩
            intro c' cs' heq _
            injection heq with h2 h3
            subst h2; subst h3
            exact ⟨c :: run, rest, h1, by simp, hrun2⟩
          · have h1 : natSplit (c :: c2 :: cs2)
                = [] :: [c] :: natSplit (c2 :: cs2) := by
              rw [natSplit_cons, if_neg hdot, if_pos hdig]
              simp [hdig2]
            have hrun1 : ∀ d ∈ [c], isDig d = true := by
              intro d hd
              rw [List.mem_singleton] at hd
              subst hd; exact hdig
            have halt2 : AltTM ([] :: [c] :: natSplit (c2 :: cs2)) :=
              AltTM.cons _ _ _ textTok_nil
                (MatchTok.digits [c] (by simp) hrun1) ih.1
            refine ⟨h1 ▸ halt2, ?_⟩
            intro c' cs' heq _
            injection heq with h2 h3
            subst h2; subst h3
            exact ⟨[c], natSplit (c2 :: cs2), h1, by simp, hrun1⟩
      · rcases h : natSplit cs with _ | ⟨t, ts⟩
        · rw [h] at ih
          exact absurd ih.1 (by intro hh; cases hh)
        · have h1 : natSplit (c :: cs) = (c :: t) :: ts := by
            rw [natSplit_cons, if_neg hdot, if_neg (by simpa using hdig)]
            rw [h]
          rw [h] at ih
          have htext : TextTok t → TextTok (c :: t) := by
            intro ht' x hx
            rcases List.mem_cons.mp hx with hh | hh
            · subst hh
              exact ⟨by simpa using hdig, hdot⟩
            · exact ht' x hh
          refine ⟨?_, ?_⟩
          · rw [h1]
            rcases altTM_elim ih.1 with ⟨hts, ht⟩ | ⟨m, l0, hts, ht, hm, hl⟩
            · subst hts
              exact AltTM.single _ (htext ht)
            · subst hts
              exact AltTM.cons _ _ _ (htext ht) hm hl
          · intro c' cs' heq hdig'
            injection heq with h2 h3
            subst h2
            exact absurd hdig' (by simpa using hdig)

/-- Key lists alternate string keys (even positions, when `b = true`) and
integer keys (odd positions). -/
inductive KeyAlt : Bool → List PyKey → Prop
  | nil (b : Bool) : KeyAlt b []
  | consS (t : String) (l : List PyKey) (h : KeyAlt false l) :
      KeyAlt true (.s t :: l)
  | consI (n : Int) (l : List PyKey) (h : KeyAlt true l) :
      KeyAlt false (.i n :: l)

theorem natKey_text_ok {t : List Char} (ht : TextTok t) {k : PyKey}
    (hk : natKey t = .ok k) : ∃ s, k = .s s := by
  have h1 : t ≠ ['.'] := by
    intro hh
    subst hh
    exact (ht '.' (List.mem_singleton_self '.')).2 rfl
  by_cases h2 : pyIsdigit t = true
  · exfalso
    cases t with
    | nil => simp [pyIsdigit] at h2
    | cons c cs =>
      have hcd : isDig c = false := (ht c (List.mem_cons_self c cs)).1
      have h3 : pyIntDigits (c :: cs) = none := by
        simp [pyIntDigits, List.all_cons, hcd]
      have h4 : natKey (c :: cs)
          = .error (.valueError "invalid literal for int with base 10") := by
        simp [natKey, h1, h2, h3]
      rw [h4] at hk
      exact Except.noConfusion hk
  · have h4 : natKey t = .ok (.s ⟨t.map charLower⟩) := by
      simp [natKey, h1, h2]
    rw [h4] at hk
    injection hk with h5
    exact ⟨_, h5.symm⟩

theorem natKey_match_ok {m : List Char} (hm : MatchTok m) :
    ∃ n : Int, natKey m = .ok (.i n) := by
  cases hm with
  | dot => exact ⟨-1, by simp [natKey]⟩
  | digits t h1 h2 =>
    have hne : m ≠ ['.'] := by
      intro hh
      subst hh
      have := h2 '.' (List.mem_singleton_self '.')
      exact absurd this (by decide)
    have hall : m.all isDig = true := List.all_eq_true.mpr h2
    have hall2 : m.all pyDigitChar = true := by
      refine List.all_eq_true.mpr ?_
      intro c2 hc2
      have h5 := h2 c2 hc2
      simp [pyDigitChar, h5]
    have hne2 : m.isEmpty = false := by
      cases m with
      | nil => exact absurd rfl h1
      | cons c cs => rfl
    have hd : pyIsdigit m = true := by
      simp [pyIsdigit, hne2, hall2]
    have hint : pyIntDigits m
        = some (m.foldl (fun a c => a * 10 + ndDigitVal c) 0) := by
      simp [pyIntDigits, hne2, hall]
    exact ⟨Int.ofNat (m.foldl (fun a c => a * 10 + ndDigitVal c) 0),
      by simp [natKey, hne, hd, hint]⟩

theorem altTM_natKeys_keyAlt {toks : List (List Char)} (h : AltTM toks) :
    ∀ ks, natKeysList toks = .ok ks → KeyAlt true ks := by
  induction h with
  | single t ht =>
    intro ks hks
    cases hk : natKey t with
    | error e =>
      simp only [natKeysList, hk] at hks
      exact Except.noConfusion hks
    | ok k =>
      obtain ⟨s, hs⟩ := natKey_text_ok ht hk
      subst hs
      simp only [natKeysList, hk] at hks
      injection hks with h2
      subst h2
      exact KeyAlt.consS s [] (KeyAlt.nil false)
  | cons t m l ht hm hl ih =>
    intro ks hks
    cases hk : natKey t with
    | error e =>
      simp only [natKeysList, hk] at hks
      exact Except.noConfusion hks
    | ok k =>
      obtain ⟨s, hs⟩ := natKey_text_ok ht hk
      subst hs
      obtain ⟨n, hn⟩ := natKey_match_ok hm
      cases hrest : natKeysList l with
      | error e =>
        simp only [natKeysList, hk, hn, hrest] at hks
        exact Except.noConfusion hks
      | ok rest =>
        simp only [natKeysList, hk, hn, hrest] at hks
        injection hks with h2
        subst h2
        exact KeyAlt.consS s _ (KeyAlt.consI n rest (ih rest hrest))

theorem natural_sort_keyAlt {s : String} {ks : List PyKey}
    (h : natural_sort s = .ok ks) : KeyAlt true ks :=
  altTM_natKeys_keyAlt (natSplit_alt s.data).1 ks h

theorem keyAlt_cmp_isSome : ∀ (l1 : List PyKey) (b : Bool) (l2 : List PyKey),
    KeyAlt b l1 → KeyAlt b l2 → (pyKeyListCmp l1 l2).isSome = true := by
  intro l1
  induction l1 with
  | nil =>
    intro b l2 _ _
    cases l2 <;> simp [pyKeyListCmp]
  | cons k ks ih =>
    intro b l2 h1 h2
    cases l2 with
    | nil => simp [pyKeyListCmp]
    | cons k2 ks2 =>
      cases h1 with
      | consS t l hl =>
        cases h2 with
        | consS t2 l2a hl2 =>
          simp only [pyKeyListCmp, pyKeyCmp]
          cases strCmp t t2 with
          | eq => simpa using ih false ks2 hl hl2
          | lt => rfl
          | gt => rfl
      | consI n l hl =>
        cases h2 with
        | consI n2 l2a hl2 =>
          simp only [pyKeyListCmp, pyKeyCmp]
          cases compare n n2 with
          | eq => simpa using ih true ks2 hl hl2
          | lt => rfl
          | gt => rfl

theorem natural_sort_cmp_isSome {s1 s2 : String} {k1 k2 : List PyKey}
    (h1 : natural_sort s1 = .ok k1) (h2 : natural_sort s2 = .ok k2) :
    (pyKeyListCmp k1 k2).isSome = true :=
  keyAlt_cmp_isSome k1 true k2 (natural_sort_keyAlt h1)
    (natural_sort_keyAlt h2)

/-- Every character of every token produced by `natSplit` comes from the
input string. -/
theorem natSplit_chars : ∀ l : List Char, ∀ t ∈ natSplit l, ∀ c ∈ t, c ∈ l := by
  intro l
  induction l with
  | nil =>
    intro t ht c hc
    simp [natSplit] at ht
    subst ht
    exact absurd hc (List.not_mem_nil c)
  | cons a as ih =>
    intro t ht c hc
    by_cases hdot : a = '.'
    · subst hdot
      have h1 : natSplit ('.' :: as) = [] :: ['.'] :: natSplit as := by
        rw [natSplit_cons, if_pos rfl]
      rw [h1] at ht
      rcases List.mem_cons.mp ht with h | h
      · subst h
        exact absurd hc (List.not_mem_nil c)
      rcases List.mem_cons.mp h with h2 | h2
      · subst h2
        rw [List.mem_singleton] at hc
        subst hc
        exact List.mem_cons_self '.' as
      · exact List.mem_cons_of_mem _ (ih t h2 c hc)
    · by_cases hdig : isDig a = true
      · cases as with
        | nil =>
          have h1 : natSplit [a] = [[], [a], []] := by
            rw [natSplit_cons, if_neg hdot, if_pos hdig]
            rfl
          rw [h1] at ht
          rcases List.mem_cons.mp ht with h | h
          · subst h
            exact absurd hc (List.not_mem_nil c)
          rcases List.mem_cons.mp h with h2 | h2
          · subst h2
            rw [List.mem_singleton] at hc
            rw [hc]
            exact List.mem_cons_self a []
          · rw [List.mem_singleton] at h2
            subst h2
            exact absurd hc (List.not_mem_nil c)
        | cons a2 as2 =>
          by_cases hdig2 : isDig a2 = true
          · obtain ⟨run, rest, hsplit, hne, hrun⟩ :=
              (natSplit_alt (a2 :: as2)).2 a2 as2 rfl hdig2
            have h1 : natSplit (a :: a2 :: as2)
                = [] :: (a :: run) :: rest := by
              rw [natSplit_cons, if_neg hdot, if_pos hdig]
              simp only [hdig2, if_true]
              rw [hsplit]
            rw [h1] at ht
            rcases List.mem_cons.mp ht with h | h
            · subst h
              exact absurd hc (List.not_mem_nil c)
            rcases List.mem_cons.mp h with h2 | h2
            · subst h2
              rcases List.mem_cons.mp hc with h3 | h3
              · subst h3
                exact List.mem_cons_self c _
              · have hmem : run ∈ natSplit (a2 :: as2) := by
                  rw [hsplit]
                  exact List.mem_cons_of_mem _ (List.mem_cons_self run rest)
                exact List.mem_cons_of_mem a (ih run hmem c h3)
            · have hmem : t ∈ natSplit (a2 :: as2) := by
                rw [hsplit]
                exact List.mem_cons_of_mem _ (List.mem_cons_of_mem _ h2)
              exact List.mem_cons_of_mem a (ih t hmem c hc)
          · have h1 : natSplit (a :: a2 :: as2)
                = [] :: [a] :: natSplit (a2 :: as2) := by
              rw [natSplit_cons, if_neg hdot, if_pos hdig]
              simp [hdig2]
            rw [h1] at ht
            rcases List.mem_cons.mp ht with h | h
            · subst h
              exact absurd hc (List.not_mem_nil c)
            rcases List.mem_cons.mp h with h2 | h2
            · subst h2
              rw [List.mem_singleton] at hc
              rw [hc]
              exact List.mem_cons_self a _
            · exact List.mem_cons_of_mem a (ih t h2 c hc)
      · rcases hsp : natSplit as with _ | ⟨t0, ts0⟩
        · have := (natSplit_alt as).1
          rw [hsp] at this
          cases this
        · have h1 : natSplit (a :: as) = (a :: t0) :: ts0 := by
            rw [natSplit_cons, if_neg hdot, if_neg (by simpa using hdig)]
            rw [hsp]
          rw [h1] at ht
          rcases List.mem_cons.mp ht with h | h
          · subst h
            rcases List.mem_cons.mp hc with h3 | h3
            · subst h3
              exact List.mem_cons_self c as
            · have hmem : t0 ∈ natSplit as := by
                rw [hsp]
                exact List.mem_cons_self t0 ts0
              exact List.mem_cons_of_mem a (ih t0 hmem c h3)
          · have hmem : t ∈ natSplit as := by
              rw [hsp]
              exact List.mem_cons_of_mem t0 h
            exact List.mem_cons_of_mem a (ih t hmem c hc)

theorem natKey_ok_of_chars {t : List Char}
    (h : ∀ c ∈ t, pyDigitChar c = true → isDig c = true) :
    ∃ k, natKey t = .ok k := by
  by_cases h1 : t = ['.']
  · exact ⟨.i (-1), by simp [natKey, h1]⟩
  by_cases h2 : pyIsdigit t = true
  · have h3 := h2
    simp only [pyIsdigit, Bool.and_eq_true] at h3
    obtain ⟨hne, hallpy⟩ := h3
    have hall : t.all isDig = true := by
      refine List.all_eq_true.mpr ?_
      intro c hc
      exact h c hc (List.all_eq_true.mp hallpy c hc)
    have hint : pyIntDigits t
        = some (t.foldl (fun a c => a * 10 + ndDigitVal c) 0) := by
      simp [pyIntDigits, hne, hall]
    exact ⟨.i (Int.ofNat (t.foldl (fun a c => a * 10 + ndDigitVal c) 0)),
      by simp [natKey, h1, h2, hint]⟩
  · exact ⟨.s ⟨t.map charLower⟩, by simp [natKey, h1, h2]⟩

theorem natKeysList_ok : ∀ toks : List (List Char),
    (∀ t ∈ toks, ∀ c ∈ t, pyDigitChar c = true → isDig c = true) →
    ∃ ks, natKeysList toks = .ok ks := by
  intro toks
  induction toks with
  | nil => exact fun h => ⟨[], rfl⟩
  | cons t ts ih =>
    intro h
    obtain ⟨k, hk⟩ := natKey_ok_of_chars (h t (List.mem_cons_self t ts))
    obtain ⟨ks, hks⟩ := ih (fun t2 ht2 => h t2 (List.mem_cons_of_mem t ht2))
    exact ⟨k :: ks, by simp [natKeysList, hk, hks]⟩

theorem natural_sort_ok {s : String}
    (h : ∀ c ∈ s.data, pyDigitChar c = true → isDig c = true) :
    ∃ ks, natural_sort s = .ok ks :=
  natKeysList_ok (natSplit s.data)
    (fun t ht c hc hd => h c (natSplit_chars s.data t ht c hc) hd)

theorem insertPair_ok (desc : Bool) (x : String × List PyKey)
    (hx : KeyAlt true x.2) :
    ∀ acc : List (String × List PyKey),
      (∀ y ∈ acc, KeyAlt true y.2) →
      ∃ r, insertPair desc x acc = .ok r ∧ ∀ y ∈ r, y = x ∨ y ∈ acc := by
  intro acc
  induction acc with
  | nil =>
    intro hacc
    refine ⟨[x], rfl, ?_⟩
    intro y hy
    rw [List.mem_singleton] at hy
    exact .inl hy
  | cons z zs ih =>
    intro hacc
    have hz : KeyAlt true z.2 := hacc z (List.mem_cons_self z zs)
    obtain ⟨o, ho⟩ := Option.isSome_iff_exists.mp
      (keyAlt_cmp_isSome x.2 true z.2 hx hz)
    obtain ⟨r, hr, hrm⟩ := ih (fun y hy => hacc y (List.mem_cons_of_mem z hy))
    by_cases hfront : (if desc then o = .gt else o = .lt)
    · refine ⟨x :: z :: zs, by simp [insertPair, ho, hfront], ?_⟩
      intro y hy
      rcases List.mem_cons.mp hy with h | h
      · exact .inl h
      · exact .inr h
    · refine ⟨z :: r, ?_, ?_⟩
      · simp only [insertPair, ho]
        rw [if_neg hfront, hr]
        rfl
      · intro y hy
        rcases List.mem_cons.mp hy with h | h
        · rw [h]
          exact .inr (List.mem_cons_self z zs)
        · rcases hrm y h with h2 | h2
          · exact .inl h2
          · exact .inr (List.mem_cons_of_mem z h2)

theorem foldlM_insertPair_ok (desc : Bool) :
    ∀ pairs acc : List (String × List PyKey),
      (∀ p ∈ pairs, KeyAlt true p.2) →
      (∀ p ∈ acc, KeyAlt true p.2) →
      ∃ r, List.foldlM (fun acc x => insertPair desc x acc) acc pairs
        = .ok r := by
  intro pairs
  induction pairs with
  | nil => exact fun acc h1 h2 => ⟨acc, rfl⟩
  | cons p ps ih =>
    intro acc hps hacc
    obtain ⟨r1, hr1, hr1m⟩ :=
      insertPair_ok desc p (hps p (List.mem_cons_self p ps)) acc hacc
    have hr1k : ∀ q ∈ r1, KeyAlt true q.2 := by
      intro q hq
      rcases hr1m q hq with h | h
      · rw [h]
        exact hps p (List.mem_cons_self p ps)
      · exact hacc q h
    obtain ⟨r2, hr2⟩ :=
      ih r1 (fun q hq => hps q (List.mem_cons_of_mem p hq)) hr1k
    refine ⟨r2, ?_⟩
    simp only [List.foldlM, hr1]
    exact hr2

theorem computeKeys_natural_keyAlt :
    ∀ (l : List String) (pairs : List (String × List PyKey)),
      computeKeys natural_sort l = .ok pairs →
      ∀ p ∈ pairs, KeyAlt true p.2 := by
  intro l
  induction l with
  | nil =>
    intro pairs h p hp
    simp only [computeKeys] at h
    injection h with h2
    subst h2
    exact absurd hp (List.not_mem_nil p)
  | cons x xs ih =>
    intro pairs h p hp
    cases hk : natural_sort x with
    | error e =>
      simp only [computeKeys, hk] at h
      exact Except.noConfusion h
    | ok k =>
      cases hrest : computeKeys natural_sort xs with
      | error e =>
        simp only [computeKeys, hk, hrest] at h
        exact Except.noConfusion h
      | ok rest =>
        simp only [computeKeys, hk, hrest] at h
        injection h with h2
        subst h2
        rcases List.mem_cons.mp hp with h3 | h3
        · subst h3
          exact natural_sort_keyAlt hk
        · exact ih rest hrest p h3

theorem computeKeys_natural_ok :
    ∀ l : List String,
      (∀ s ∈ l, ∀ c ∈ s.data, pyDigitChar c = true → isDig c = true) →
      ∃ pairs, computeKeys natural_sort l = .ok pairs := by
  intro l
  induction l with
  | nil => exact fun h => ⟨[], rfl⟩
  | cons x xs ih =>
    intro h
    obtain ⟨k, hk⟩ := natural_sort_ok (h x (List.mem_cons_self x xs))
    obtain ⟨rest, hrest⟩ := ih (fun s hs => h s (List.mem_cons_of_mem x hs))
    exact ⟨(x, k) :: rest, by simp [computeKeys, hk, hrest]⟩

theorem pySortByKey_natural_ok (l : List String) (desc : Bool)
    (h : ∀ s ∈ l, ∀ c ∈ s.data, pyDigitChar c = true → isDig c = true) :
    ∃ r, pySortByKey natural_sort desc l = .ok r := by
  obtain ⟨pairs, hpairs⟩ := computeKeys_natural_ok l h
  have hka := computeKeys_natural_keyAlt l pairs hpairs
  obtain ⟨sorted, hsorted⟩ :=
    foldlM_insertPair_ok desc pairs [] hka
      (fun p hp => absurd hp (List.not_mem_nil p))
  exact ⟨sorted.map (fun y => y.1), by simp [pySortByKey, hpairs, hsorted]⟩

/-- Claim C9: sorting with the natural sort key orders embedded numeric
runs numerically: the input `["10.jpg", "2.jpg", "1.jpg"]` sorts to
`["1.jpg", "2.jpg", "10.jpg"]`, and `"img2.png"` sorts before
`"img10.png"` even though plain lexicographic string order disagrees. -/
theorem c9_natural_sort_concrete :
    pySortByKey natural_sort false ["10.jpg", "2.jpg", "1.jpg"]
        = .ok ["1.jpg", "2.jpg", "10.jpg"] ∧
      (natural_sort "img2.png").bind
          (fun k1 => (natural_sort "img10.png").map
            (fun k2 => pyKeyListCmp k1 k2))
        = .ok (some .lt) ∧
      strCmp "img10.png" "img2.png" = .lt :=
  ⟨rfl, rfl, rfl⟩

/-- Claim C10 (counterexample): Python's `str.isdigit` is also true of
Numeric_Type=Digit characters such as U+00B2 SUPERSCRIPT TWO, which re's
`\d` does not capture and `int()` rejects, so the token `"²"` of
`natural_sort("1²")` takes the `int(t)` branch and raises `ValueError`,
and sorting a list containing such a name raises instead of never
raising. -/
theorem c10_counterexample_digit_typed_char :
    natural_sort ⟨['1', Char.ofNat 178]⟩
        = .error (.valueError "invalid literal for int with base 10") ∧
      pySortByKey natural_sort false [⟨['1', Char.ofNat 178]⟩]
        = .error (.valueError "invalid literal for int with base 10") :=
  ⟨rfl, rfl⟩

/-- Claim C10 (amended): whenever `natural_sort` returns a key list it
alternates string keys (even positions) and integer keys (odd positions),
so two successfully produced keys always admit a Python comparison
(no `TypeError`); and sorting succeeds on every list of names whose
digit-typed characters are all true decimal digits — but `natural_sort`
itself raises `ValueError` on other digit-typed characters, so sorting is
not unconditionally exception-free. -/
theorem c10_keys_comparable_amended :
    (∀ (s : String) (ks : List PyKey),
        natural_sort s = .ok ks → KeyAlt true ks) ∧
      (∀ (s1 s2 : String) (k1 k2 : List PyKey),
        natural_sort s1 = .ok k1 → natural_sort s2 = .ok k2 →
        (pyKeyListCmp k1 k2).isSome = true) ∧
      (∀ (l : List String) (desc : Bool),
        (∀ s ∈ l, ∀ c ∈ s.data, pyDigitChar c = true → isDig c = true) →
        ∃ r, pySortByKey natural_sort desc l = .ok r) :=
  ⟨fun _ _ h => natural_sort_keyAlt h,
    fun _ _ _ _ h1 h2 => natural_sort_cmp_isSome h1 h2,
    fun l desc h => pySortByKey_natural_ok l desc h⟩

/-- Witness for the amended claim C10 at concrete inputs: the keys of
`"img2"`, the comparison of the keys of `"img2"` and `"img10"`, and the
sort of two all-ASCII names. -/
theorem c10_keys_comparable_amended_witness :
    KeyAlt true [PyKey.s "img", .i 2, .s ""] ∧
      (pyKeyListCmp [PyKey.s "img", .i 2, .s ""]
          [PyKey.s "img", .i 10, .s ""]).isSome = true ∧
      ∃ r, pySortByKey natural_sort false ["b2.png", "b10.png"] = .ok r :=
  ⟨c10_keys_comparable_amended.1 "img2" [PyKey.s "img", .i 2, .s ""] rfl,
    c10_keys_comparable_amended.2.1 "img2" "img10"
      [PyKey.s "img", .i 2, .s ""] [PyKey.s "img", .i 10, .s ""] rfl rfl,
    c10_keys_comparable_amended.2.2 ["b2.png", "b10.png"] false (by decide)⟩

/-! ### Claims C2 and C6: `info_decode` -/

theorem ofOpt_ne_failLookup (o : Option (List Char)) :
    ofOpt o ≠ .failLookup := by
  cases o <;> simp [ofOpt]

theorem pyDecodeBytes_known_ne_lookup {enc : String}
    (h : encKnown enc = true) (b : List Nat) :
    pyDecodeBytes enc b ≠ .failLookup := by
  have h' := of_decide_eq_true h
  unfold pyDecodeBytes
  rcases h' with h1 | h1 | h1 | h1 | h1 | h1 | h1 <;>
    simp [h1, ofOpt_ne_failLookup]

theorem asciiDecode_ok {b : List Nat} (h : ∀ x ∈ b, x < 128) :
    ∃ cs, asciiDecode b = some cs := by
  induction b with
  | nil => exact ⟨[], rfl⟩
  | cons x xs ih =>
    obtain ⟨cs, hcs⟩ := ih (fun y hy => h y (List.mem_cons_of_mem x hy))
    have hx := h x (List.mem_cons_self x xs)
    exact ⟨Char.ofNat x :: cs, by simp [asciiDecode, hx, hcs]⟩

theorem cp1252Decode_ok {b : List Nat} (h : ∀ x ∈ b, cp1252Hole x = false) :
    ∃ cs, cp1252Decode b = some cs := by
  induction b with
  | nil => exact ⟨[], rfl⟩
  | cons x xs ih =>
    obtain ⟨cs, hcs⟩ := ih (fun y hy => h y (List.mem_cons_of_mem x hy))
    have hx := h x (List.mem_cons_self x xs)
    exact ⟨cp1252Char x :: cs, by simp [cp1252Decode, hx, hcs]⟩

theorem ansiFallback_ok {b : List Nat} (h : ∀ x ∈ b, cp1252Hole x = false) :
    ∃ s, ansiFallback b = .ok s := by
  obtain ⟨cs, hcs⟩ := cp1252Decode_ok h
  have : pyDecodeBytes "ansi" b = ofOpt (cp1252Decode b) := rfl
  exact ⟨reSubNonPrintable ⟨cs⟩, by simp [ansiFallback, this, hcs, ofOpt]⟩

theorem decodeTryChain_ok_or {b : List Nat} :
    ∀ encs : List String, (∀ e ∈ encs, pyDecodeBytes e b ≠ .failLookup) →
      (∃ s, decodeTryChain b encs = some (.ok s)) ∨
        decodeTryChain b encs = none := by
  intro encs
  induction encs with
  | nil => exact fun _ => .inr rfl
  | cons e es ih =>
    intro h
    cases he : pyDecodeBytes e b with
    | ok s => exact .inl ⟨s, by simp [decodeTryChain, he]⟩
    | failUnicode =>
      rcases ih (fun e2 h2 => h e2 (List.mem_cons_of_mem e h2)) with
        ⟨s, hs⟩ | hn
      · exact .inl ⟨s, by simp [decodeTryChain, he, hs]⟩
      · exact .inr (by simp [decodeTryChain, he, hn])
    | failLookup => exact absurd he (h e (List.mem_cons_self e es))

/-- Claim C2 (amended): `info_decode` on a byte sequence returns a string
provided the fallback encoding is a known codec, the bytes avoid the five
cp1252-undefined values, and an `ASCII\0\0\0`-marked payload is pure ASCII;
outside these conditions a decode failure escapes `info_decode` as an
exception (see the counterexample). -/
theorem c2_info_decode_ok_under_conditions (b : List Nat) (enc : String)
    (henc : encKnown enc = true)
    (hhole : ∀ x ∈ b, cp1252Hole x = false)
    (hascii : asciiMarker.isPrefixOf b = true → ∀ x ∈ b.drop 8, x < 128) :
    ∃ s, info_decode (.bytes b) enc = .ok s := by
  by_cases hA : asciiMarker.isPrefixOf b = true
  · obtain ⟨cs, hcs⟩ := asciiDecode_ok (hascii hA)
    have hred : pyDecodeBytes "ascii" (b.drop 8)
        = ofOpt (asciiDecode (b.drop 8)) := rfl
    exact ⟨⟨cs⟩, by simp [info_decode, hA, hred, hcs, ofOpt]⟩
  · by_cases hU : unicodeMarker.isPrefixOf b = true
    · have hdropmem : ∀ x ∈ b.drop 8, cp1252Hole x = false :=
        fun x hx => hhole x (List.mem_of_mem_drop hx)
      have hnl : ∀ e ∈ ["utf-16-be", "utf-16-le", enc, "utf8"],
          pyDecodeBytes e (b.drop 8) ≠ .failLookup := by
        intro e he
        fin_cases he
        · exact pyDecodeBytes_known_ne_lookup (by decide) _
        · exact pyDecodeBytes_known_ne_lookup (by decide) _
        · exact pyDecodeBytes_known_ne_lookup henc _
        · exact pyDecodeBytes_known_ne_lookup (by decide) _
      rcases decodeTryChain_ok_or _ hnl with ⟨s, hs⟩ | hn
      · exact ⟨s, by simp [info_decode, hA, hU, hs]⟩
      · obtain ⟨s, hret⟩ := ansiFallback_ok hdropmem
        exact ⟨s, by simp [info_decode, hA, hU, hn, hret]⟩
    · obtain ⟨s, hret⟩ := ansiFallback_ok hhole
      exact ⟨s, by simp [info_decode, hA, hU, hret]⟩

/-- Witness for C2 (amended) at a concrete input: plain ASCII bytes with a
known fallback encoding decode to a string. -/
theorem c2_info_decode_ok_witness :
    ∃ s, info_decode (.bytes [72, 105]) "utf8" = .ok s :=
  c2_info_decode_ok_under_conditions [72, 105] "utf8" (by decide) (by decide)
    (by decide)

/-- Claim C2 is false as stated: a byte string carrying the `ASCII\0\0\0`
marker whose payload has a non-ASCII byte makes `info_decode` raise a
`UnicodeDecodeError` (the marker path has no handler), so `info_decode`
does not return a string for every byte sequence and encoding. -/
theorem c2_counterexample_ascii_marker_raises :
    info_decode (.bytes [65, 83, 67, 73, 73, 0, 0, 0, 128]) "utf8"
      = .error (.unicodeDecodeError "ascii codec cannot decode byte") := rfl

/-- Spec-side definition for the refinement comparison of claim C6,
following the spec's words: attempt the decodings in order and return the
result of the first attempt that succeeds. -/
def specFirstSuccess : List DecodeResult → Option String
  | [] => none
  | .ok s :: _ => some s
  | _ :: rest => specFirstSuccess rest

theorem unicode_marker_not_ascii (b : List Nat) :
    asciiMarker.isPrefixOf (unicodeMarker ++ b) = false := by
  simp [asciiMarker, unicodeMarker, List.isPrefixOf]

theorem unicode_marker_is_prefixOf (b : List Nat) :
    unicodeMarker.isPrefixOf (unicodeMarker ++ b) = true := by
  rw [List.isPrefixOf_iff_prefix]
  exact List.prefix_append unicodeMarker b

theorem unicode_marker_drop (b : List Nat) :
    (unicodeMarker ++ b).drop 8 = b := by
  simp [unicodeMarker]

/-- Claim C6: on input beginning with the 8-byte marker `UNICODE\0`,
`info_decode` strips the marker and attempts the decodings in exactly the
fixed order UTF-16 big-endian, UTF-16 little-endian, the caller-supplied
fallback encoding, UTF-8, and returns the result of the first attempt that
succeeds (assuming the fallback is an encoding at all, so that its attempt
can only succeed or fail with a `UnicodeDecodeError`). -/
theorem c6_unicode_fixed_priority_order (b : List Nat) (enc : String)
    (s : String)
    (henc : pyDecodeBytes enc b ≠ .failLookup)
    (hfs : specFirstSuccess [pyDecodeBytes "utf-16-be" b,
        pyDecodeBytes "utf-16-le" b, pyDecodeBytes enc b,
        pyDecodeBytes "utf8" b] = some s) :
    info_decode (.bytes (unicodeMarker ++ b)) enc = .ok s := by
  have hbe := @pyDecodeBytes_known_ne_lookup "utf-16-be" (by decide) b
  have hle := @pyDecodeBytes_known_ne_lookup "utf-16-le" (by decide) b
  have h8 := @pyDecodeBytes_known_ne_lookup "utf8" (by decide) b
  simp only [info_decode, unicode_marker_not_ascii,
    unicode_marker_is_prefixOf, unicode_marker_drop, Bool.false_eq_true,
    if_false, if_true]
  cases h1 : pyDecodeBytes "utf-16-be" b with
  | ok s1 =>
    simp only [specFirstSuccess, h1, Option.some.injEq] at hfs
    simp [decodeTryChain, h1, hfs]
  | failLookup => exact absurd h1 hbe
  | failUnicode =>
    cases h2 : pyDecodeBytes "utf-16-le" b with
    | ok s2 =>
      simp only [specFirstSuccess, h1, h2, Option.some.injEq] at hfs
      simp [decodeTryChain, h1, h2, hfs]
    | failLookup => exact absurd h2 hle
    | failUnicode =>
      cases h3 : pyDecodeBytes enc b with
      | ok s3 =>
        simp only [specFirstSuccess, h1, h2, h3, Option.some.injEq] at hfs
        simp [decodeTryChain, h1, h2, h3, hfs]
      | failLookup => exact absurd h3 henc
      | failUnicode =>
        cases h4 : pyDecodeBytes "utf8" b with
        | ok s4 =>
          simp only [specFirstSuccess, h1, h2, h3, h4,
            Option.some.injEq] at hfs
          simp [decodeTryChain, h1, h2, h3, h4, hfs]
        | failLookup => exact absurd h4 h8
        | failUnicode =>
          simp [specFirstSuccess, h1, h2, h3, h4] at hfs

/-- Witness for C6 at a concrete input: UTF-16-BE bytes of "Hi" behind the
marker decode at the first attempt. -/
theorem c6_unicode_fixed_priority_order_witness :
    info_decode (.bytes (unicodeMarker ++ [0, 72, 0, 105])) "utf8"
      = .ok "Hi" :=
  c6_unicode_fixed_priority_order [0, 72, 0, 105] "utf8" "Hi" (by decide)
    (by decide)

/-! ### `metadata.py`: image model and extractor oracles -/

/-- Python dict as ordered association list: first-match lookup. -/
def getKey : List (String × PyVal) → String → Option PyVal
  | [], _ => none
  | (k, v) :: rest, key => if k = key then some v else getKey rest key

/-- `d[key] = v`: replace in place or append. -/
def setKey : List (String × PyVal) → String → PyVal → List (String × PyVal)
  | [], key, v => [(key, v)]
  | (k, w) :: rest, key, v =>
    if k = key then (k, v) :: rest else (k, w) :: setKey rest key v

def hasKey (d : List (String × PyVal)) (key : String) : Bool :=
  (getKey d key).isSome

/-- `d.update(**add)`: existing keys keep their position with the new
value, new keys are appended. -/
def dictUpdate (d add : List (String × PyVal)) : List (String × PyVal) :=
  d.map (fun kv =>
    match getKey add kv.1 with
    | some v => (kv.1, v)
    | none => kv)
    ++ add.filter (fun kv => ¬ hasKey d kv.1)

instance instDecEqExcept {ε α : Type} [DecidableEq ε] [DecidableEq α] :
    DecidableEq (Except ε α) := fun x y =>
  match x, y with
  | .ok a, .ok b =>
    if h : a = b then isTrue (by rw [h])
    else isFalse (by intro hh; cases hh; exact h rfl)
  | .error a, .error b =>
    if h : a = b then isTrue (by rw [h])
    else isFalse (by intro hh; cases hh; exact h rfl)
  | .ok _, .error _ => isFalse (by intro hh; cases hh)
  | .error _, .ok _ => isFalse (by intro hh; cases hh)

/-- The slice of a PIL image object the metadata extractors read.
`legacyExif` is `_getexif()` (with `hasLegacyExif` the `hasattr` probe),
`getxmp` is the `getxmp()` method when present (its `ValueError` as
`.error`), `iptcinfo` is `IptcImagePlugin.getiptcinfo(im)`, and the
statistics fields are the PIL accessors used by `info_get`
(`mimetype`/`bits` are `none` when the attribute probe fails). -/
structure PILImage where
  hasLegacyExif : Bool := false
  legacyExif : Option (List (Nat × PyVal)) := none
  info : List (String × PyVal) := []
  getxmp : Option (Except String (List (String × PyVal))) := none
  iptcinfo : Option (List ((Nat × Nat) × PyVal)) := none
  format : Option String := none
  mimetype : Option String := none
  bits : Option Nat := none
  width : Nat := 1
  height : Nat := 1
  mode : String := "1"
  nColors : Nat := 1
  nFrames : Option Nat := none
  frameDurations : List Nat := []
  deriving DecidableEq

/-- What `ImageCms` exposes about a parsed ICC profile
(`isIntentSupported` returns `1` or `-1`). -/
structure ICCProfile where
  intent : Nat
  copyright : String
  description : String
  manufacturer : String
  model : String
  intentSupported : Int
  deriving DecidableEq

/-- Result of the `subprocess.run` call on `exiftool`: the binary may be
missing from PATH, or run and produce stdout/stderr bytes. -/
inductive ExiftoolResult where
  | notFound
  | ran (stdout stderr : List Nat)
  deriving DecidableEq

/-- Ambient libraries used by the extractors: `ImageCms.ImageCmsProfile`
(with the profile accessors bundled), the external `exiftool` process, and
`yaml.safe_dump`. -/
structure World where
  parseICC : List Nat → Except PyErr ICCProfile
  exiftool : String → ExiftoolResult
  yamlDump : List (String × PyVal) → String

/-! ### `metadata.py`: `info_exif` -/

inductive ByteOrder where
  | big
  | little
  deriving DecidableEq

def boName : ByteOrder → String
  | .big => "big"
  | .little => "little"

/-- `"big" if b"MM" in im.info["exif"][:8] else "little"`. -/
def exifByteOrder (blob : List Nat) : ByteOrder :=
  if listContainsSub [77, 77] (blob.take 8) then .big else .little

def intFromBytesBE (b : List Nat) : Nat := b.foldl (fun a x => a * 256 + x) 0

def intFromBytesLE (b : List Nat) : Nat := b.foldr (fun x a => a * 256 + x) 0

def intFromBytes (bo : ByteOrder) (b : List Nat) : Nat :=
  match bo with
  | .big => intFromBytesBE b
  | .little => intFromBytesLE b

/-- The orientation tuple of `info_exif` (index 0 is the unused `""`). -/
def orientationLabels : List String :=
  ["", "normal", "flip left right", "rotate 180", "flip top bottom",
   "transpose", "rotate 90", "transverse", "rotate 270"]

/-- Python tuple indexing with negative wrap-around; out of range is an
`IndexError`. -/
def pyTupleIndex (l : List String) (n : Int) : Except PyErr String :=
  if 0 ≤ n ∧ n < l.length then .ok (l.getD n.toNat "")
  else if -(l.length : Int) ≤ n ∧ n < 0 then
    .ok (l.getD (l.length - (-n).toNat) "")
  else .error (.indexError "tuple index out of range")

def componentLetters : List String := ["-", "Y", "Cb", "Cr", "R", "G", "B"]

/-- `"".join(("-","Y","Cb","Cr","R","G","B")[B] for B in v)` over bytes;
`none` is the `IndexError` the source catches. -/
def compJoinBytes : List Nat → Option String
  | [] => some ""
  | x :: xs =>
    if x ≤ 6 then
      (compJoinBytes xs).map (fun r => componentLetters.getD x "" ++ r)
    else none

/-- The same join over a tuple: integer elements index with Python
wrap-around (`IndexError` caught as `none`), non-integers are a
`TypeError` that escapes. -/
def compJoinScalars : List PyScalar → Except PyErr (Option String)
  | [] => .ok (some "")
  | .int n :: xs =>
    if 0 ≤ n ∧ n < 7 then
      (compJoinScalars xs).map
        (fun r => r.map (fun t => componentLetters.getD n.toNat "" ++ t))
    else if -7 ≤ n ∧ n < 0 then
      (compJoinScalars xs).map
        (fun r => r.map (fun t => componentLetters.getD (7 - (-n).toNat) "" ++ t))
    else .ok none
  | _ :: _ => .error (.typeError "tuple indices must be integers")

/-- `{1: "sRGB"}.get(v, v)`-style lookup keeping the value on a miss. -/
def intMapGet (m : List (Int × String)) (v : PyVal) : PyVal :=
  match v with
  | .int n =>
    match m.lookup n with
    | some s => .str s
    | none => v
  | _ => v

/-- The per-tag value interpretation of `info_exif` rendered to the string
interpolated into the output line. -/
def exifValueStr (bo : ByteOrder) (k : Nat) (keyName : String) (v : PyVal) :
    Except PyErr String :=
  if keyName = "ColorSpace" then
    .ok (pyStr (intMapGet [(1, "sRGB"), (65535, "uncalibrated")] v))
  else if keyName = "ComponentsConfiguration" then
    match v with
    | .bytes b =>
      match compJoinBytes b with
      | some s => .ok s
      | none => .ok (pyStr v)
    | .tuple vs =>
      (compJoinScalars vs).map (fun r =>
        match r with
        | some s => s
        | none => pyStr v)
    | _ => .error (.typeError "ComponentsConfiguration is not iterable")
  else if keyName = "Orientation" then
    match v with
    | .int n => pyTupleIndex orientationLabels n
    | _ => .error (.typeError "tuple indices must be integers")
  else if k = 771 then
    match v with
    | .bytes b => pyTupleIndex RENDERING_INTENT (intFromBytes bo b)
    | _ => .error (.typeError "argument should be a bytes-like object")
  else if keyName = "ResolutionUnit" then
    .ok (pyStr (intMapGet [(2, "inch"), (3, "cm")] v))
  else if keyName = "SceneCaptureType" then
    .ok (pyStr (intMapGet [(0, "standard"), (1, "landscape"),
      (2, "portrait"), (3, "night scene")] v))
  else if keyName = "YCbCrPositioning" then
    .ok (pyStr (intMapGet [(1, "centered"), (2, "co-sited")] v))
  else
    match v with
    | .bytes b =>
      if b.length < 5 then .ok (toString (intFromBytes bo b))
      else info_decode v (if bo = .big then "utf_16_be" else "utf_16_le")
    | _ => info_decode v (if bo = .big then "utf_16_be" else "utf_16_le")

/-- The tag loop of `info_exif`. -/
def exifLines (bo : ByteOrder) : List (Nat × PyVal) → Except PyErr String
  | [] => .ok ""
  | (k, v) :: rest => do
    let line ←
      match EXIF_TAGS k with
      | none =>
        pure ("\nUnknown EXIF tag " ++ toString k ++ ": " ++ pyStr v)
      | some keyName =>
        (exifValueStr bo k keyName v).map
          (fun s => "\n" ++ keyName ++ ": " ++ s)
    let restS ← exifLines bo rest
    pure (line ++ restS)

/-- `info_exif` from `metadata.py`.  The byte-order probe indexes
`im.info["exif"]`, which raises `KeyError` when the raw blob is absent. -/
def info_exif (im : PILImage) : Except PyErr String :=
  if !im.hasLegacyExif then .ok ""
  else match im.legacyExif with
  | none => .ok ""
  | some exif =>
    if exif.isEmpty then .ok ""
    else
      match getKey im.info "exif" with
      | some (.bytes blob) =>
        let bo := exifByteOrder blob
        (exifLines bo exif).map (fun body =>
          pyStrip ("EXIF:\nByte order: " ++ boName bo ++ "-endian" ++ body))
      | some _ => .error (.typeError "a bytes-like object is required")
      | none => .error (.keyError "exif")

/-! ### `metadata.py`: remaining extractors -/

/-- `info_icc`: parse `im.info["icc_profile"]` through `ImageCms` and
format the profile fields.  There is no handler around the parse. -/
def info_icc (w : World) (im : PILImage) : Except PyErr String :=
  match getKey im.info "icc_profile" with
  | none => .ok ""
  | some icc =>
    if pyTruthy icc then
      match icc with
      | .bytes b =>
        match w.parseICC b with
        | .error e => .error e
        | .ok p =>
          if p.intent < 4 then
            let man := pyStrip p.manufacturer
            let mdl := pyStrip p.model
            let s := "ICC Profile:\nCopyright: " ++ pyStrip p.copyright
              ++ "\nDescription: " ++ pyStrip p.description
              ++ "\nIntent: " ++ RENDERING_INTENT.getD p.intent ""
              ++ "\nisIntentSupported: " ++ toString p.intentSupported
            let s := if man ≠ "" then s ++ "\nManufacturer: " ++ man else s
            let s := if mdl ≠ "" then s ++ "\nModel: " ++ mdl else s
            .ok (pyStrip s)
          else .error (.indexError "tuple index out of range")
      | _ => .error (.typeError "a bytes-like object is required")
    else .ok ""

/-- `[{b"\x1b%G": "UTF8"}.get(i, i) for i in v]`. -/
def iptcCCSList (items : List PyScalar) : List PyScalar :=
  items.map (fun i => if i = .bytes [27, 37, 71] then .str "UTF8" else i)

def iptcLines : List ((Nat × Nat) × PyVal) → Except PyErr String
  | [] => .ok ""
  | ((r, d), v) :: rest => do
    let line ←
      if r = 1 ∧ d = 90 then
        match v with
        | .list items =>
          pure ("\nCoded Character Set: " ++ pyRepr (.list (iptcCCSList items)))
        | .tuple items =>
          pure ("\nCoded Character Set: " ++ pyRepr (.list (iptcCCSList items)))
        | .bytes b =>
          pure ("\nCoded Character Set: "
            ++ pyRepr (.list (b.map (fun x => PyScalar.int (Int.ofNat x)))))
        | .str t =>
          pure ("\nCoded Character Set: "
            ++ pyRepr (.list (t.data.map (fun c => PyScalar.str ⟨[c]⟩))))
        | _ => throw (.typeError "argument is not iterable")
      else if r = 2 ∧ d = 0 then
        match v with
        | .bytes b =>
          pure ("\nApplication Record Version: "
            ++ toString (intFromBytesLE b))
        | _ => throw (.typeError "cannot convert object to bytes")
      else
        match IIM_NAMES (r, d) with
        | some nm => pure ("\n" ++ nm ++ ": " ++ pyRepr v)
        | none =>
          pure ("\n(" ++ toString r ++ ", " ++ toString d ++ "): " ++ pyRepr v)
    let restS ← iptcLines rest
    pure (line ++ restS)

/-- `info_iptc`: legacy IPTC/IIM records via `getiptcinfo`. -/
def info_iptc (im : PILImage) : Except PyErr String :=
  match im.iptcinfo with
  | none => .ok ""
  | some iptc =>
    if iptc.isEmpty then .ok ""
    else (iptcLines iptc).map (fun body => pyStrip ("IPTC:" ++ body))

/-- Count the leading `\xHH`-shaped 4-character groups (the `(\\x..){2,}`
regex groups; `.` excludes newlines). -/
def countHexGroups : List Char → Nat
  | '\\' :: 'x' :: a :: b :: rest =>
    if a ≠ '\n' ∧ b ≠ '\n' then countHexGroups rest + 1 else 0
  | _ => 0

def dropHexGroups : List Char → List Char
  | '\\' :: 'x' :: a :: b :: rest =>
    if a ≠ '\n' ∧ b ≠ '\n' then dropHexGroups rest
    else '\\' :: 'x' :: a :: b :: rest
  | l => l

/-- `re.sub(r"(\\x..){2,}", " ", s)`: each maximal run of two or more
escape groups becomes one space (fuel is the character count). -/
def stripHexRunsGo : Nat → List Char → List Char
  | _, [] => []
  | 0, l => l
  | fuel + 1, c :: cs =>
    if 2 ≤ countHexGroups (c :: cs) then
      ' ' :: stripHexRunsGo fuel (dropHexGroups (c :: cs))
    else c :: stripHexRunsGo fuel cs

def stripHexRuns (s : String) : String :=
  ⟨stripHexRunsGo s.data.length s.data⟩

/-- `.replace(r"\\0", "")`: remove every backslash-backslash-zero run. -/
def psdDropBS0 : List Char → List Char
  | '\\' :: '\\' :: '0' :: rest => psdDropBS0 rest
  | c :: cs => c :: psdDropBS0 cs
  | [] => []

def psdReadable (v : PyVal) : String :=
  ⟨psdDropBS0 (stripHexRuns (pyStr v)).data⟩

/-- `re.match("b'\\s+'", s)`: does the string begin with `b`, a quote, one
or more whitespace characters, and a quote? -/
def matchBQuoteWs (s : String) : Bool :=
  match s.data with
  | 'b' :: q :: rest =>
    if q = Char.ofNat 39 then
      (!(rest.takeWhile isSpaceChar).isEmpty) &&
        (match rest.dropWhile isSpaceChar with
          | c :: _ => c == Char.ofNat 39
          | [] => false)
    else false
  | _ => false

def psdResourceName (k : PyScalar) : String :=
  match k with
  | .int n =>
    match (if 0 ≤ n then PSD_RESOURCE_IDS n.toNat else none) with
    | some nm => nm
    | none => toString n
  | other => pyStr other.toVal

def psdLines : List (PyScalar × PyScalar) → Except PyErr String
  | [] => .ok ""
  | (k, v) :: rest => do
    let vv := v.toVal
    let readable := psdReadable vv
    let line ←
      if readable = "" ∨ matchBQuoteWs readable then
        match v with
        | .bytes b =>
          let v2 : PyVal :=
            if b.length < 5 then .int (Int.ofNat (intFromBytesBE b)) else vv
          pure (psdResourceName k ++ ": " ++ truncate200 (pyStr v2) ++ "\n")
        | .str t =>
          if t.data.length < 5 then
            throw (.typeError "cannot convert str object to bytes")
          else pure (psdResourceName k ++ ": " ++ truncate200 (pyStr vv) ++ "\n")
        | .int _ => throw (.typeError "object of type int has no len")
      else pure (psdResourceName k ++ ": " ++ truncate200 readable ++ "\n")
    let restS ← psdLines rest
    pure (line ++ restS)

/-- `info_psd`: the Photoshop IRB mapping of `im.info["photoshop"]`. -/
def info_psd (im : PILImage) : Except PyErr String :=
  match getKey im.info "photoshop" with
  | none => .ok ""
  | some (.dict items) =>
    (psdLines items).map (fun body => pyStrip ("Photoshop:\n" ++ body))
  | some _ => .error (.attributeError "object has no attribute items")

/-- `info_xmp`: the only failure the source handles is `getxmp`'s
`ValueError`, reported inline; with that contained, the extractor is a
total function into strings. -/
def info_xmp (w : World) (im : PILImage) : String :=
  match im.getxmp with
  | none => ""
  | some (.error ex) => "XMP: " ++ ex
  | some (.ok xmp) =>
    if xmp.isEmpty then ""
    else pyStrip ("XMP:\n" ++ w.yamlDump xmp)

/-- `info_exiftool`: run the external tool, decode stdout/stderr with
`ansi`/`errors="replace"` (total), strip carriage returns; a missing
binary yields the empty string. -/
def info_exiftool (w : World) (path : String) : String :=
  match w.exiftool path with
  | .notFound => ""
  | .ran out err =>
    let stdoutS : String :=
      if out.isEmpty then ""
      else ⟨(cp1252DecodeReplace out).filter (fun c => c ≠ '\r')⟩
    let stderrS : String := ⟨(cp1252DecodeReplace err).filter (fun c => c ≠ '\r')⟩
    pyStrip (stdoutS ++ stderrS)

/-! ### `metadata.py`: `info_get` -/

/-- The keys the header loop of `info_get` skips. -/
def skipKeys : List String :=
  ["dpi", "exif", "icc_profile", "jfif", "Names", "photoshop",
   "transparency", "XML:com.adobe.xmp"]

/-- `f"{v[0]}.0{v[1]}"` for `jfif_version`. -/
def jfifVersionStr (v : PyVal) : Except PyErr String :=
  match v with
  | .tuple (a :: b :: _) => .ok (pyStr a.toVal ++ ".0" ++ pyStr b.toVal)
  | .list (a :: b :: _) => .ok (pyStr a.toVal ++ ".0" ++ pyStr b.toVal)
  | .tuple _ => .error (.indexError "tuple index out of range")
  | .list _ => .error (.indexError "list index out of range")
  | .str t =>
    match t.data with
    | a :: b :: _ => .ok ((⟨[a]⟩ : String) ++ ".0" ++ (⟨[b]⟩ : String))
    | _ => .error (.indexError "string index out of range")
  | .bytes (a :: b :: _) => .ok (toString a ++ ".0" ++ toString b)
  | .bytes _ => .error (.indexError "index out of range")
  | _ => .error (.typeError "object is not subscriptable")

/-- The `comment` humanization: `v.decode("utf8")`, and on a
`UnicodeDecodeError` `v.decode("utf_16_be")` whose own failure escapes. -/
def decodeComment (v : PyVal) : Except PyErr String :=
  match v with
  | .bytes b =>
    match pyDecodeBytes "utf8" b with
    | .ok s => .ok s
    | _ =>
      match pyDecodeBytes "utf_16_be" b with
      | .ok s => .ok s
      | _ => .error (.unicodeDecodeError "utf-16-be codec cannot decode")
  | _ => .error (.attributeError "object has no attribute decode")

/-- The `tag_v2` branch `{TiffTags.TAGS_V2[k2]: v2 for k2, v2 in v}`
requires iterating pairs; none of this embedding's two-level value shapes
yields unpackable pairs (a dict iterates its keys), so the branch raises
the unpacking `TypeError` here.  A three-level pair-yielding value, which
the embedding does not represent, would build the renamed mapping via
`TIFF_TAGS_V2` instead. -/
def tagV2Str (v : PyVal) : Except PyErr String :=
  match v, TIFF_TAGS_V2 0 with
  | _, _ => .error (.typeError "cannot unpack non-iterable object")

/-- The header loop of `info_get` over the raw metadata items. -/
def infoHeader : List (String × PyVal) → Except PyErr String
  | [] => .ok ""
  | (k, v) :: rest =>
    if skipKeys.contains k then infoHeader rest
    else do
      let vs ←
        if k = "adobe" then pure ("DCT v" ++ pyStr v)
        else if k = "adobe_transform" then
          pure (pyStr (intMapGet [(1, "YCbCr")] v))
        else if k = "comment" then decodeComment v
        else if k = "jfif_unit" then
          pure (pyStr (intMapGet [(0, "none"), (1, "inch"), (2, "cm")] v))
        else if k = "jfif_version" then jfifVersionStr v
        else if k = "loop" then pure (pyStr (intMapGet [(0, "infinite")] v))
        else if k = "tag_v2" then tagV2Str v
        else pure (pyStr v)
      let restS ← infoHeader rest
      pure ("\n" ++ k ++ ": " ++ vs ++ restS)

/-- The per-image statistics block of `info_get` (format, MIME type, bit
depth, color mode, distinct colors, pixels). -/
def imStats (im : PILImage) : String :=
  "\nFormat: " ++ (match im.format with | some f => f | none => "None")
    ++ (match im.mimetype with | some m => "\nMIME type: " ++ m | none => "")
    ++ (match im.bits with | some n => "\nBit Depth: " ++ toString n | none => "")
    ++ "\nColor Type: " ++ im.mode
    ++ "\nColors: " ++ commaFormat im.nColors
    ++ "\nPixels: " ++ commaFormat (im.width * im.height)

/-- The extractor loop of `info_get`: run the six extractors in the fixed
order EXIF, ICC, IPTC, XMP, Photoshop, external-tool and append each
non-empty result after a blank line. -/
def info_get_body (w : World) (im : PILImage) (path : String)
    (msg0 : String) : Except PyErr String := do
  let msg := msg0 ++ imStats im
  let s1 ← info_exif im
  let msg := if s1 ≠ "" then msg ++ "\n\n" ++ s1 else msg
  let s2 ← info_icc w im
  let msg := if s2 ≠ "" then msg ++ "\n\n" ++ s2 else msg
  let s3 ← info_iptc im
  let msg := if s3 ≠ "" then msg ++ "\n\n" ++ s3 else msg
  let s4 := info_xmp w im
  let msg := if s4 ≠ "" then msg ++ "\n\n" ++ s4 else msg
  let s5 ← info_psd im
  let msg := if s5 ≠ "" then msg ++ "\n\n" ++ s5 else msg
  let s6 := info_exiftool w path
  let msg := if s6 ≠ "" then msg ++ "\n\n" ++ s6 else msg
  pure msg

/-- `info_get` from `metadata.py`: header block, then (when an image is
present) statistics and extractor sections; every return path escapes NUL
bytes via `replace("\0", "\\0")`. -/
def info_get (w : World) (im : Option PILImage)
    (info : List (String × PyVal)) (path : String) : Except PyErr String :=
  match infoHeader info with
  | .error e => .error e
  | .ok msg =>
    match im with
    | none => .ok (escNul msg)
    | some im =>
      match info_get_body w im path msg with
      | .error e => .error e
      | .ok m => .ok (escNul m)

/-! ### Claims C1, C5, C7, C8 -/

/-- A default oracle bundle for concrete instantiations. -/
def wDefault : World :=
  { parseICC := fun _ => .ok ⟨0, "c", "d", "", "", 1⟩
    exiftool := fun _ => .notFound
    yamlDump := fun _ => "" }

/-- The oracle bundle of C1's counterexample: `ImageCms` rejects the
profile bytes, as it does for corrupt ICC data. -/
def wBadICC : World :=
  { parseICC := fun _ => .error (.osError "cannot parse ICC profile")
    exiftool := fun _ => .notFound
    yamlDump := fun _ => "" }

def imWithICC : PILImage := { info := [("icc_profile", .bytes [1, 2, 3])] }

/-- Claim C1 is false as stated: the ICC extractor has no handler around
the profile parse, so corrupt ICC bytes raise past `info_icc`'s boundary
instead of yielding an empty string or an inline note. -/
theorem c1_counterexample_icc_raises :
    info_icc wBadICC imWithICC = .error (.osError "cannot parse ICC profile") :=
  rfl

/-- Claim C1 (amended): the XMP extractor contains its parse failure as an
inline error note and the external-tool extractor returns the empty string
when the tool is missing (both are total string functions), and the ICC
extractor returns a string whenever the profile parses with a standard
rendering intent; but a profile-parse failure escapes `info_icc` uncaught,
so not every extractor contains its own failures. -/
theorem c1_extractor_containment :
    (∀ (w : World) (im : PILImage) (b : List Nat) (p : ICCProfile),
      getKey im.info "icc_profile" = some (.bytes b) → b ≠ [] →
      w.parseICC b = .ok p → p.intent < 4 →
      ∃ s, info_icc w im = .ok s) ∧
    (∀ (w : World) (im : PILImage) (e : String),
      im.getxmp = some (.error e) → info_xmp w im = "XMP: " ++ e) ∧
    (∀ (w : World) (path : String),
      w.exiftool path = .notFound → info_exiftool w path = "") := by
  refine ⟨?_, ?_, ?_⟩
  · intro w im b p hkey hb hparse hintent
    have ht : pyTruthy (.bytes b) = true := by simpa [pyTruthy] using hb
    simp only [info_icc, hkey, ht, hparse, if_true, if_pos hintent]
    exact ⟨_, rfl⟩
  · intro w im e hx
    simp [info_xmp, hx]
  · intro w path hx
    simp [info_exiftool, hx]

/-- Witness for C1 (amended) at concrete inputs. -/
theorem c1_extractor_containment_witness :
    (∃ s, info_icc wDefault imWithICC = .ok s) ∧
      info_xmp wDefault { getxmp := some (.error "boom") } = "XMP: boom" ∧
      info_exiftool wDefault "p" = "" :=
  ⟨c1_extractor_containment.1 wDefault imWithICC [1, 2, 3] ⟨0, "c", "d", "", "", 1⟩
      rfl (by decide) rfl (by decide),
    c1_extractor_containment.2.1 wDefault _ "boom" rfl,
    c1_extractor_containment.2.2 wDefault "p" rfl⟩

/-- The concrete image of claim C7: a legacy-EXIF mapping holding the
Orientation tag (274) with value `v`, and a raw blob beginning `MM`. -/
def exifImOrient (v : Int) : PILImage :=
  { hasLegacyExif := true
    legacyExif := some [(274, .int v)]
    info := [("exif", .bytes [77, 77, 0, 42])] }

/-- Claim C7: with the Orientation tag at value 6 (blob beginning `MM`)
the EXIF extractor output contains the line `Orientation: rotate 90`, and
values 1–8 map respectively to normal, flip left right, rotate 180, flip
top bottom, transpose, rotate 90, transverse, rotate 270. -/
theorem c7_orientation_labels (v : Nat) (h1 : 1 ≤ v) (h2 : v ≤ 8) :
    info_exif (exifImOrient (Int.ofNat v))
      = .ok ("EXIF:\nByte order: big-endian\nOrientation: "
        ++ ["", "normal", "flip left right", "rotate 180", "flip top bottom",
            "transpose", "rotate 90", "transverse", "rotate 270"].getD v "") := by
  interval_cases v <;> rfl

/-- Witness for C7 at Orientation value 6: the output line is
`Orientation: rotate 90`. -/
theorem c7_orientation_labels_witness :
    info_exif (exifImOrient (Int.ofNat 6))
      = .ok "EXIF:\nByte order: big-endian\nOrientation: rotate 90" :=
  (c7_orientation_labels 6 (by decide) (by decide)).trans (by rfl)

theorem escNulChars_no_nul : ∀ l : List Char, Char.ofNat 0 ∉ escNulChars l := by
  intro l
  induction l with
  | nil => simp [escNulChars]
  | cons c cs ih =>
    by_cases hc : c = Char.ofNat 0
    · intro hmem
      simp only [escNulChars, if_pos hc] at hmem
      rcases List.mem_cons.mp hmem with h | h
      · exact absurd h (by decide)
      · rcases List.mem_cons.mp h with h2 | h2
        · exact absurd h2 (by decide)
        · exact ih h2
    · intro hmem
      simp only [escNulChars, if_neg hc] at hmem
      rcases List.mem_cons.mp hmem with h | h
      · exact hc h.symm
      · exact ih h

/-- Claim C8: whatever the image, raw metadata and path, a successfully
built info report contains no raw NUL character — both return paths of
`info_get` escape NULs to the two-character sequence `\0`. -/
theorem c8_report_has_no_raw_nul (w : World) (im : Option PILImage)
    (info : List (String × PyVal)) (path : String) (s : String)
    (h : info_get w im info path = .ok s) :
    Char.ofNat 0 ∉ s.data := by
  unfold info_get at h
  cases hh : infoHeader info with
  | error e => rw [hh] at h; simp at h
  | ok m =>
    rw [hh] at h
    cases im with
    | none =>
      simp only [Except.ok.injEq] at h
      subst h
      exact escNulChars_no_nul m.data
    | some im0 =>
      simp only at h
      cases hb : info_get_body w im0 path m with
      | error e => rw [hb] at h; simp at h
      | ok m2 =>
        rw [hb] at h
        simp only [Except.ok.injEq] at h
        subst h
        exact escNulChars_no_nul m2.data

/-- Witness for C8: a metadata value with an embedded NUL is rendered with
the two-character escape, and the result indeed contains no NUL. -/
theorem c8_report_has_no_raw_nul_witness :
    info_get wDefault none [("a", .str ⟨['b', Char.ofNat 0, 'c']⟩)] ""
        = .ok "\na: b\\0c" ∧
      Char.ofNat 0 ∉ ("\na: b\\0c").data :=
  ⟨rfl, c8_report_has_no_raw_nul wDefault none
    [("a", .str ⟨['b', Char.ofNat 0, 'c']⟩)] "" _ rfl⟩

/-! ### Claim C5: byte-order detection in `info_exif` -/

theorem strData_append (a b : String) : (a ++ b).data = a.data ++ b.data := rfl

/-- `strip()` of a string starting and ending with non-whitespace keeps
that string as a prefix. -/
theorem pyStripL_append_keeps_head (c : Char) (cs b : List Char)
    (hc : isSpaceChar c = false)
    (hlast : ∀ x, (c :: cs).getLast? = some x → isSpaceChar x = false) :
    ∃ t, pyStripL ((c :: cs) ++ b) = (c :: cs) ++ t := by
  have hfront : ((c :: cs) ++ b).dropWhile isSpaceChar = (c :: cs) ++ b := by
    simp [List.dropWhile_cons, hc]
  unfold pyStripL
  rw [hfront, List.reverse_append, List.dropWhile_append]
  by_cases hemp : (b.reverse.dropWhile isSpaceChar).isEmpty
  · rw [if_pos hemp]
    have hne : (c :: cs).reverse ≠ [] := by simp
    obtain ⟨x, xs, hx⟩ := List.exists_cons_of_ne_nil hne
    have hxlast : (c :: cs).getLast? = some x := by
      rw [← List.head?_reverse, hx]
      rfl
    have hxn : isSpaceChar x = false := hlast x hxlast
    rw [hx]
    refine ⟨[], ?_⟩
    rw [List.dropWhile_cons, hxn]
    simp [← hx]
  · rw [if_neg hemp]
    exact ⟨(b.reverse.dropWhile isSpaceChar).reverse, by
      rw [List.reverse_append]
      simp⟩

theorem pyStrip_append_of_ends (p b : String)
    (hp : p.data ≠ [])
    (hh : ∀ c, p.data.head? = some c → isSpaceChar c = false)
    (hl : ∀ x, p.data.getLast? = some x → isSpaceChar x = false) :
    ∃ t : String, pyStrip (p ++ b) = p ++ t := by
  obtain ⟨c, cs, hcs⟩ := List.exists_cons_of_ne_nil hp
  have hc : isSpaceChar c = false := hh c (by rw [hcs]; rfl)
  obtain ⟨t, ht⟩ :=
    pyStripL_append_keeps_head c cs b.data hc (fun x hx => hl x (hcs ▸ hx))
  refine ⟨⟨t⟩, ?_⟩
  have : pyStrip (p ++ b) = ⟨pyStripL (p.data ++ b.data)⟩ := by
    simp [pyStrip, strData_append]
  rw [this, hcs, ht]
  show String.mk ((c :: cs) ++ t) = _
  have hpp : p = ⟨c :: cs⟩ := by
    cases p
    simp at hcs
    simp [hcs]
  rw [hpp]
  rfl

/-- The image of C5's counterexample: its raw exif blob is
`b"Exif\0\0MM"`, whose first two bytes are `Ex`, not `MM`. -/
def imExifPrefixed : PILImage :=
  { hasLegacyExif := true
    legacyExif := some [(274, .int 1)]
    info := [("exif", .bytes [69, 120, 105, 102, 0, 0, 77, 77])] }

/-- Claim C5 is false as stated: with the raw exif blob `b"Exif\0\0MM"`
the first two bytes are not `MM`, yet the detected byte order is
big-endian — the source checks whether `b"MM"` occurs anywhere in the
first 8 bytes, not just as the first two. -/
theorem c5_counterexample_byte_order :
    info_exif imExifPrefixed
        = .ok "EXIF:\nByte order: big-endian\nOrientation: normal"
      ∧ [69, 120, 105, 102, 0, 0, 77, 77].take 2 ≠ [77, 77] :=
  ⟨rfl, by decide⟩

theorem pyStrip_concrete_header (hdr body : String)
    (h1 : hdr.data ≠ [])
    (h2 : hdr.data.head?.all (fun c => !isSpaceChar c) = true)
    (h3 : hdr.data.getLast?.all (fun c => !isSpaceChar c) = true) :
    ∃ t, pyStrip (hdr ++ body) = hdr ++ t := by
  refine pyStrip_append_of_ends hdr body h1 ?_ ?_
  · intro c hc
    rw [hc] at h2
    simpa using h2
  · intro c hc
    rw [hc] at h3
    simpa using h3

/-- Claim C5 (amended): whenever the legacy EXIF accessor is non-empty and
the raw `exif` blob is present, the extractor output is prefixed with a
byte-order header line, and the detected order is big-endian exactly when
the two-byte sequence `MM` occurs anywhere within the first 8 bytes of the
blob (not merely as its first two bytes), little-endian otherwise. -/
theorem c5_byte_order_header (im : PILImage) (exif : List (Nat × PyVal))
    (blob : List Nat) (s : String)
    (hhas : im.hasLegacyExif = true)
    (hex : im.legacyExif = some exif)
    (hne : exif ≠ [])
    (hblob : getKey im.info "exif" = some (.bytes blob))
    (hok : info_exif im = .ok s) :
    ∃ t, s = "EXIF:\nByte order: "
      ++ (if listContainsSub [77, 77] (blob.take 8) then "big" else "little")
      ++ "-endian" ++ t := by
  have hie : exif.isEmpty = false := by
    cases exif
    · exact absurd rfl hne
    · rfl
  unfold info_exif at hok
  rw [hhas] at hok
  simp only [Bool.not_true, Bool.false_eq_true, if_false] at hok
  rw [hex] at hok
  simp only at hok
  rw [hie] at hok
  simp only [Bool.false_eq_true, if_false] at hok
  rw [hblob] at hok
  simp only at hok
  cases hl : exifLines (exifByteOrder blob) exif with
  | error e =>
    rw [hl] at hok
    simp [Except.map] at hok
  | ok body =>
    rw [hl] at hok
    simp only [Except.map, Except.ok.injEq] at hok
    by_cases hbo : listContainsSub [77, 77] (blob.take 8) = true
    · have hbo2 : exifByteOrder blob = .big := by
        simp [exifByteOrder, hbo]
      rw [hbo2] at hok
      simp only [boName] at hok
      obtain ⟨t, ht⟩ := pyStrip_concrete_header
        ("EXIF:\nByte order: " ++ "big" ++ "-endian") body (by decide)
        (by decide) (by decide)
      rw [hbo]
      exact ⟨t, by rw [← hok, ht]; rfl⟩
    · have hbo2 : exifByteOrder blob = .little := by
        simp [exifByteOrder, hbo]
      rw [hbo2] at hok
      simp only [boName] at hok
      obtain ⟨t, ht⟩ := pyStrip_concrete_header
        ("EXIF:\nByte order: " ++ "little" ++ "-endian") body (by decide)
        (by decide) (by decide)
      rw [if_neg hbo]
      exact ⟨t, by rw [← hok, ht]⟩

/-- Witness for C5 (amended) at a little-endian blob `b"II*\0"`. -/
theorem c5_byte_order_header_witness :
    ∃ t, "EXIF:\nByte order: little-endian\nOrientation: normal"
      = "EXIF:\nByte order: "
      ++ (if listContainsSub [77, 77] ([73, 73, 42, 0].take 8) then "big"
          else "little")
      ++ "-endian" ++ t :=
  c5_byte_order_header
    { hasLegacyExif := true
      legacyExif := some [(274, .int 1)]
      info := [("exif", .bytes [73, 73, 42, 0])] }
    [(274, .int 1)] [73, 73, 42, 0] _ rfl rfl (by decide) rfl rfl

/-! ### `main.py`: application state and container loading

Mutation of the `APP` globals is state passing on `App`; a raise inside a
loader is `App × some err`, keeping the mutations made before the raise,
as CPython does. -/

structure App where
  im : Option PILImage := none
  info : List (String × PyVal) := []
  i_zip : Nat := 0
  i_path : Nat := 0
  paths : List String := []
  filter_names : Bool := true
  sort : String := "natural"
  reverse : Bool := false
  supported_exts : List String := []
  b_animate : Bool := true
  im_frame : Int := 0
  deriving DecidableEq

/-- An opened ZIP archive: `namelist()` and `Image.open(zf.open(name))`. -/
structure ZipFile where
  names : List String
  openEntry : String → Except PyErr PILImage

/-- An opened TAR archive: `getnames()` and the combined
`extractfile(name)` (`none` for a member without a file object) followed
by `Image.open` on the handle. -/
structure TarFile where
  names : List String
  extract : String → Option (Except PyErr PILImage)

/-- `has_supported_extension` from `main.py` for archive member names
(which are strings, so the `pathlib.Path` directory probe does not
apply). -/
def has_supported_extension (exts : List String) (name : String) : Bool :=
  if strStartsWith name "__MACOSX" then false
  else exts.any (fun ext => strEndsWith (strUpper name) ext)

/-- The `for s in APP.sort.split(","):` loop applying the configured
sorts. -/
def applySorts (app : App) (names : List String) :
    Except PyErr (List String) :=
  (pySplit app.sort ",").foldlM
    (fun ns s =>
      if s = "natural" then pySortByKey natural_sort app.reverse ns
      else if s = "string" then
        pySortByKey (fun x => .ok [PyKey.s x]) app.reverse ns
      else pure ns)
    names

/-- `load_zip` from `main.py`.  An empty filtered member list silently
sets the image to `None` and returns; an out-of-range index is caught and
reset to 0. -/
def load_zip (zf : ZipFile) (app : App) : App × Option PyErr :=
  let names := zf.names
  let names :=
    if app.filter_names then
      names.filter (has_supported_extension app.supported_exts)
    else names
  if names.length = 0 then ({ app with im := none }, none)
  else
    match applySorts app names with
    | .error e => (app, some e)
    | .ok names =>
      let app := { app with
        info := setKey app.info "Names" (.list (names.map PyScalar.str)) }
      match names.get? app.i_zip with
      | some nm =>
        match zf.openEntry nm with
        | .ok im => ({ app with im := some im }, none)
        | .error e => (app, some e)
      | none =>
        let app := { app with i_zip := 0 }
        match zf.openEntry (names.headD "") with
        | .ok im => ({ app with im := some im }, none)
        | .error e => (app, some e)

/-- `load_tar` from `main.py`.  An empty filtered member list raises
`ValueError("No image found")`; a member without an image file object is a
`TypeError`; the `copy()` preserving the format is the identity here since
the embedded image is immutable. -/
def load_tar (tf : TarFile) (app : App) : App × Option PyErr :=
  let names := tf.names
  let names :=
    if app.filter_names then
      names.filter (has_supported_extension app.supported_exts)
    else names
  if names.length = 0 then (app, some (.valueError "No image found"))
  else
    match applySorts app names with
    | .error e => (app, some e)
    | .ok names =>
      let app := { app with
        info := setKey app.info "Names" (.list (names.map PyScalar.str)) }
      let withName := fun (app : App) (name : String) =>
        match tf.extract name with
        | none => (app, some (.typeError ("Not an image: " ++ name)))
        | some (.error e) => (app, some e)
        | some (.ok im) => ({ app with im := some im }, none)
      match names.get? app.i_zip with
      | some nm => withName app nm
      | none => withName { app with i_zip := 0 } (names.headD "")

/-! ### `main.py`: MHTML loading -/

/-- `re.search('boundary="(.+)"', mhtml)`: the marker text. -/
def boundaryMarker : List Char := ("boundary=" ++ pyQuote).data

/-- The rest of the current line (`.` does not match a newline). -/
def lineRest (l : List Char) : List Char := l.takeWhile (fun c => c ≠ '\n')

/-- Greedy `(.+)"`: capture up to the last quote of the line segment,
requiring at least one captured character. -/
def lastQuoteCapture (seg : List Char) : Option (List Char) :=
  match seg.reverse.dropWhile (fun c => c ≠ Char.ofNat 34) with
  | _ :: before =>
    if before.reverse.isEmpty then none else some before.reverse
  | [] => none

def findBoundary : List Char → Option (List Char)
  | [] => none
  | l@(_ :: t) =>
    if boundaryMarker.isPrefixOf l then
      match lastQuoteCapture (lineRest (l.drop boundaryMarker.length)) with
      | some cap => some cap
      | none => findBoundary t
    else findBoundary t

def mhtmlBoundary (mhtml : String) : Option String :=
  (findBoundary mhtml.data).map (⟨·⟩)

/-- `sorted(meta.strip().split("\n"))[0].split("/")[-1]`. -/
def mhtmlPartName (meta : String) : String :=
  let lines := pySplit (pyStrip meta) "\n"
  let first := (sortStrs lines).headD ""
  (pySplit first "/").getLastD ""

/-- The part loop of `load_mhtml`: split each part into headers/body,
keep base64 parts with no or an image content type, and derive names. -/
def collectParts : List String → Except PyErr (List String × List String)
  | [] => .ok ([], [])
  | p :: rest =>
    match pySplitOnce p "\n\n" with
    | none =>
      .error (.valueError "not enough values to unpack (expected 2, got 1)")
    | some (meta, data) => do
      let (ns, ds) ← collectParts rest
      let m := strLower meta
      if strContains m "\ncontent-transfer-encoding: base64" = false then
        pure (ns, ds)
      else if strContains m "\ncontent-type:" = true ∧
          strContains m "\ncontent-type: image" = false then
        pure (ns, ds)
      else
        pure (mhtmlPartName meta :: ns, data :: ds)

/-! ### `main.py`: filesystem and library oracles for `im_load` -/

/-- Ambient effects of `im_load` and the loaders: `os.stat` (as the
already-formatted dict `set_stats` builds from it), `os.path.isdir`,
archive opening, file reading, base64 decoding, `Image.open`, the
SVG rasterisation path (external `pygame`), and the GUI `im_resize`. -/
structure FS where
  stat : String → Except PyErr (List (String × PyVal))
  isdir : String → Bool
  openZip : String → Except PyErr ZipFile
  openTar : String → Except PyErr TarFile
  readText : String → Except PyErr String
  b64decode : String → Except PyErr (List Nat)
  openBytes : List Nat → Except PyErr PILImage
  openPath : String → Except PyErr PILImage
  loadSvg : String → Except PyErr PILImage
  resize : App → App × Option PyErr

/-- `load_mhtml` from `main.py`.  The entry-name list is stored into the
state before the selected part is decoded, so a failing decode leaves the
new names behind. -/
def load_mhtml (fs : FS) (app : App) (path : String) : App × Option PyErr :=
  match fs.readText path with
  | .error e => (app, some e)
  | .ok mhtml =>
    match mhtmlBoundary mhtml with
    | none =>
      (app, some (.attributeError "NoneType object has no attribute group"))
    | some boundary =>
      let parts := ((pySplit mhtml boundary).drop 1).dropLast
      match collectParts parts with
      | .error e => (app, some e)
      | .ok (names, new_parts) =>
        if new_parts.isEmpty then
          (app, some (.valueError ("No image found in " ++ path)))
        else
          let app := { app with
            info := setKey app.info "Names" (.list (names.map PyScalar.str)) }
          if app.i_zip < new_parts.length then
            let data := new_parts.getD app.i_zip ""
            match (fs.b64decode (pyRstrip data)).bind fs.openBytes with
            | .ok im => ({ app with im := some im }, none)
            | .error e =>
              let m := "Failed to load image " ++ toString (1 + app.i_zip)
                ++ " of"
              let e2 := match e with
                | .unidentifiedImageError _ => PyErr.unidentifiedImageError m
                | .valueError _ => PyErr.valueError m
                | e => e
              (app, some e2)
          else (app, some (.indexError "list index out of range"))

/-! ### `main.py`: `im_load` -/

/-- `pathlib.Path.suffix`. -/
def pathBase (p : String) : String := (pySplit p "/").getLastD ""

def pathSuffix (p : String) : String :=
  let name := (pathBase p).data
  let afterDot := name.reverse.takeWhile (fun c => c ≠ '.')
  if afterDot.length = name.length then ""
  else
    let i := name.length - 1 - afterDot.length
    if 0 < i ∧ i < name.length - 1 then "." ++ (⟨afterDot.reverse⟩ : String)
    else ""

/-- `pathlib.Path.suffixes`. -/
def pathSuffixes (p : String) : List String :=
  let name := pathBase p
  if strEndsWith name "." then []
  else
    let stripped := name.data.dropWhile (fun c => c = '.')
    ((splitOnGo ['.'] stripped.length [] stripped).drop 1).map
      (fun t => "." ++ (⟨t⟩ : String))

/-- `"".join(path.suffixes[-2:])`. -/
def lastTwoSuffixes (p : String) : String :=
  let sfx := pathSuffixes p
  String.join (sfx.drop (sfx.length - 2))

/-- `set_stats` from `main.py`: replace `APP.info` with a fresh dict built
from `os.stat` (the string formatting of the stat fields happens in the
oracle, being `time.strftime` output). -/
def set_stats (fs : FS) (app : App) (path : String) : App × Option PyErr :=
  match fs.stat path with
  | .ok d => ({ app with info := d }, none)
  | .error e => (app, some e)

/-- Sequencing that stops at the first raise but keeps the mutated state. -/
def andThenE (r : App × Option PyErr) (f : App → App × Option PyErr) :
    App × Option PyErr :=
  match r with
  | (app, none) => f app
  | (app, some e) => (app, some e)

/-- The extension dispatch of `im_load`'s `try` block. -/
def im_load_dispatch (fs : FS) (app : App) (path : String) :
    App × Option PyErr :=
  if pathSuffix path = ".zip" then
    match fs.openZip path with
    | .error e => (app, some e)
    | .ok zf => load_zip zf app
  else if pathSuffix path = ".svg" ∨ pathSuffix path = ".svgz" then
    match fs.loadSvg path with
    | .ok im => ({ app with im := some im }, none)
    | .error e => (app, some e)
  else if pathSuffix path = ".eml" ∨ pathSuffix path = ".mht"
      ∨ pathSuffix path = ".mhtml" then
    load_mhtml fs app path
  else if (pathSuffix path = ".tar" ∨ pathSuffix path = ".tbz2"
        ∨ pathSuffix path = ".tgz" ∨ pathSuffix path = ".txz")
      ∨ (lastTwoSuffixes path = ".tar.bz2" ∨ lastTwoSuffixes path = ".tar.gz"
        ∨ lastTwoSuffixes path = ".tar.xz" ∨ lastTwoSuffixes path = ".tar.zst"
        ∨ lastTwoSuffixes path = ".tar.zstd") then
    match fs.openTar path with
    | .error e => (app, some e)
    | .ok tf => load_tar tf app
  else
    match fs.openPath path with
    | .ok im => ({ app with im := some im }, none)
    | .error e => (app, some e)

/-- The animation bookkeeping after a successful load (`n_frames`,
summed frame durations with the `or 100` default, `im_frame := -1` when
animating). -/
def frameStep (app : App) (im : PILImage) : App :=
  match im.nFrames with
  | some n =>
    if 1 < n then
      let info := setKey app.info "Frames" (.int (Int.ofNat n))
      let duration := (List.range n).foldl
        (fun acc f =>
          let d := im.frameDurations.getD f 100
          acc + (if d = 0 then 100 else d)) 0
      let info := setKey info "duration"
        (.str (toString duration ++ " ms"))
      let app := { app with info := info }
      if app.b_animate then { app with im_frame := -1 } else app
    else app
  | none => app

/-- `APP.info.update(**APP.im.info)` and what follows in the `try` block;
a `None` image here is the `AttributeError` the broad handler catches. -/
def im_load_post (fs : FS) (app : App) : App × Option PyErr :=
  match app.im with
  | none => (app, some (.attributeError "NoneType object has no attribute info"))
  | some im =>
    let app := { app with info := dictUpdate app.info im.info, im_frame := 0 }
    fs.resize (frameStep app im)

/-- The broad `except` clause of `im_load`: set the displayed image to
`None` and build the error message shown via `error_show` from the
exception text and the path. -/
def im_load_except (fs : FS) (app1 : App) (path msg : String) (e : PyErr) :
    App × Option String :=
  let errMsg :=
    if fs.isdir path then "Press enter to open folder:"
    else pyErrName e ++ ": " ++ pyErrText e
  let app2 := { app1 with im := none }
  let msg2 := msg ++ " " ++ errMsg ++
    (if strContains errMsg (pyQuote ++ path ++ pyQuote) = false ∧
        strContains errMsg path = false
      then " " ++ path else "")
  (app2, some msg2)

/-- `im_load` from `main.py` (with the path already resolved by
`path_get`): the `try` block dispatches and post-processes, and the broad
`except` clause (`im_load_except`) handles any raise. -/
def im_load (fs : FS) (app : App) (path : String) : App × Option String :=
  let msg := toString (app.i_path + 1) ++ "/" ++ toString app.paths.length
  match
    andThenE
      (if path = "pasted" then (app, none)
       else andThenE (set_stats fs app path)
         (fun a => im_load_dispatch fs a path))
      (im_load_post fs) with
  | (app1, none) => (app1, none)
  | (app1, some e) => im_load_except fs app1 path msg e

/-- The one-step unfolding of `im_load` used by the proofs. -/
theorem im_load_eq (fs : FS) (app : App) (path : String) :
    im_load fs app path =
      match
        andThenE
          (if path = "pasted" then (app, none)
           else andThenE (set_stats fs app path)
             (fun a => im_load_dispatch fs a path))
          (im_load_post fs) with
      | (app1, none) => (app1, none)
      | (app1, some e) =>
        im_load_except fs app1 path
          (toString (app.i_path + 1) ++ "/" ++ toString app.paths.length) e :=
  rfl

def tfC4 : TarFile :=
  { names := ["x.png"]
    extract := fun _ => some (.error (.osError "truncated")) }

def fsC4 : FS :=
  { stat := fun _ => .ok [("Size", .str "1 B")]
    isdir := fun _ => false
    openZip := fun _ => .error (.osError "no zip")
    openTar := fun _ => .ok tfC4
    readText := fun _ => .error (.osError "no file")
    b64decode := fun _ => .error (.valueError "bad b64")
    openBytes := fun _ => .error (.osError "no")
    openPath := fun _ => .error (.osError "no")
    loadSvg := fun _ => .error (.osError "no")
    resize := fun a => (a, none) }

def imOld : PILImage := { mode := "RGB" }

def appC4 : App :=
  { im := some imOld
    info := [("Names", .list [.str "old.png"])]
    paths := ["a.tar"]
    supported_exts := [".PNG"] }

/-- Claim C4 is false as stated: loading a TAR whose selected member
fails to decode surfaces an error, yet the previously displayed image has
been replaced by `None` (by the `except` clause) and the previously shown
entry-name list has been overwritten with the new archive's names (stored
before the decode attempt) — caller-visible state is partially mutated on
the failure path. -/
theorem c4_counterexample_partial_mutation :
    (im_load fsC4 appC4 "a.tar").2 = some "1/1 OSError: truncated a.tar"
      ∧ (im_load fsC4 appC4 "a.tar").1.im = none
      ∧ appC4.im = some imOld
      ∧ getKey (im_load fsC4 appC4 "a.tar").1.info "Names"
          = some (.list [.str "x.png"])
      ∧ getKey appC4.info "Names" = some (.list [.str "old.png"]) :=
  ⟨rfl, rfl, rfl, rfl, rfl⟩

/-- Claim C4 (amended): on a failing load `im_load` surfaces an error
message, but rather than leaving previously caller-visible state
untouched it always sets the displayed image to `None`, and the info
mapping (including the entry-name list) may already have been replaced by
`set_stats` and the container loaders before the failure. -/
theorem c4_failure_clears_image (fs : FS) (app : App) (path m : String)
    (h : (im_load fs app path).2 = some m) :
    (im_load fs app path).1.im = none := by
  rw [im_load_eq] at h ⊢
  rcases hr :
    andThenE
      (if path = "pasted" then (app, none)
       else andThenE (set_stats fs app path)
         (fun a => im_load_dispatch fs a path))
      (im_load_post fs) with ⟨app1, eo⟩
  rw [hr] at h
  cases eo with
  | none =>
    exact Option.noConfusion (show (none : Option String) = some m from h)
  | some e => rfl

/-- The filesystem of C4's witness: `os.stat` fails on a missing file. -/
def fsStatFail : FS :=
  { fsC4 with stat := fun _ => .error (.fileNotFoundError "missing: b.png") }

/-- Witness for C4 (amended): a failing stat leaves the image cleared. -/
theorem c4_failure_clears_image_witness :
    (im_load fsStatFail appC4 "b.png").1.im = none :=
  c4_failure_clears_image fsStatFail appC4 "b.png" _ rfl

/-! ### Claim C3: empty containers -/

def zfEmptyAfterFilter : ZipFile :=
  { names := ["readme.txt"]
    openEntry := fun _ => .error (.osError "boom") }

def appC3 : App := { im := some imOld, supported_exts := [".PNG", ".JPG"] }

/-- Claim C3 is false as stated: a ZIP whose member list is empty after
image-extension filtering does not surface a distinct "no image found"
condition — `load_zip` silently sets the current image to `None` and
returns without raising anything (`load_tar` is the loader that raises
`ValueError("No image found")`). -/
theorem c3_counterexample_zip_silent :
    load_zip zfEmptyAfterFilter appC3 = ({ appC3 with im := none }, none) :=
  rfl

/-- Claim C3 (amended): when the member list is empty after filtering,
neither archive loader produces an index-out-of-range fault, but only
`load_tar` surfaces the distinct `ValueError("No image found")` condition;
`load_zip` silently sets the current image to `None` and returns with no
error, leaving the rest of the state untouched. -/
theorem c3_empty_container_behaviour (zf : ZipFile) (tf : TarFile) (app : App)
    (hz : (if app.filter_names then
        zf.names.filter (has_supported_extension app.supported_exts)
      else zf.names) = [])
    (ht : (if app.filter_names then
        tf.names.filter (has_supported_extension app.supported_exts)
      else tf.names) = []) :
    load_zip zf app = ({ app with im := none }, none)
      ∧ load_tar tf app = (app, some (.valueError "No image found")) := by
  constructor
  · simp only [load_zip]
    rw [hz]
    simp
  · simp only [load_tar]
    rw [ht]
    simp

def zfNoNames : ZipFile :=
  { names := [], openEntry := fun _ => .error (.osError "boom") }

def tfNoNames : TarFile := { names := [], extract := fun _ => none }

/-- Witness for C3 (amended) at concrete empty archives. -/
theorem c3_empty_container_behaviour_witness :
    load_zip zfNoNames appC3 = ({ appC3 with im := none }, none)
      ∧ load_tar tfNoNames appC3
          = (appC3, some (.valueError "No image found")) :=
  c3_empty_container_behaviour zfNoNames tfNoNames appC3 rfl rfl
